import Mathlib

/-!
Verification development for the BEO catering-workflow backend
(`backend/app/main_db.py`, `backend/app/models.py`, `backend/app/database.py`).

The registry (PostgreSQL via SQLAlchemy) is modelled as lists of rows, one
structure per ORM model; the endpoint handlers are embedded as pure Lean
functions over an explicit system state.  Python `datetime` values that the
code stores in `event_date` are modelled at day granularity (every code path
that writes `event_date` builds a midnight datetime, and `(now - event).days`
of a normalized `timedelta` equals the calendar-day difference), so a date is
a `(year, month, day)` triple and "now" is the current calendar date.
-/

deriving instance DecidableEq for Except

/-- A calendar date, standing for the midnight `datetime` values the code
stores in `event_date`. -/
structure Date where
  year : Int
  month : Nat
  day : Nat
deriving DecidableEq, Repr

/-- Python leap-year rule (`calendar.isleap`, used implicitly by
`datetime(year, month, day)` validity and `strftime`). -/
def isLeap (y : Int) : Bool :=
  y % 4 == 0 && (y % 100 != 0 || y % 400 == 0)

/-- Number of days in a month, as enforced by the `datetime` constructor. -/
def daysInMonth (y : Int) (m : Nat) : Nat :=
  match m with
  | 1 => 31
  | 2 => if isLeap y then 29 else 28
  | 3 => 31
  | 4 => 30
  | 5 => 31
  | 6 => 30
  | 7 => 31
  | 8 => 31
  | 9 => 30
  | 10 => 31
  | 11 => 30
  | 12 => 31
  | _ => 0

/-- `datetime(year, month, day)`: `some` on a valid date, `none` when the
constructor raises `ValueError`. -/
def mkDatetime (y : Int) (m d : Nat) : Option Date :=
  if 1 ≤ y && y ≤ 9999 && 1 ≤ m && m ≤ 12 && 1 ≤ d && d ≤ daysInMonth y m then
    some ⟨y, m, d⟩
  else
    none

/-- Days since 1970-01-01 (Rata Die shifted to the Unix epoch); the
`days_from_civil` algorithm.  `timedelta.days` of the difference of two
midnight datetimes is the difference of their `rataDie` values. -/
def rataDie (dt : Date) : Int :=
  let y : Int := if dt.month ≤ 2 then dt.year - 1 else dt.year
  let m : Int := dt.month
  let d : Int := dt.day
  let era : Int := y.fdiv 400
  let yoe : Int := y - era * 400
  let doy : Int := (153 * (if dt.month > 2 then m - 3 else m + 9) + 2).fdiv 5 + d - 1
  let doe : Int := yoe * 365 + yoe.fdiv 4 - yoe.fdiv 100 + doy
  era * 146097 + doe - 719468

/-- Python `date.weekday()`: Monday = 0 .. Sunday = 6.
1970-01-01 (`rataDie` = 0) was a Thursday. -/
def pythonWeekday (dt : Date) : Nat :=
  ((rataDie dt + 3) % 7).toNat

/-- Weekday names as produced by `strftime("%A")` in the C locale. -/
def weekdayNames : List String :=
  ["Monday", "Tuesday", "Wednesday", "Thursday", "Friday", "Saturday", "Sunday"]

/-- `event_date.strftime("%A")`. -/
def dayNameOf (dt : Date) : String :=
  weekdayNames.getD (pythonWeekday dt) "Monday"

/-- Days in the year strictly before month `m`. -/
def daysBeforeMonth (leap : Bool) (m : Nat) : Int :=
  (match m with
   | 1 => 0
   | 2 => 31
   | 3 => 59
   | 4 => 90
   | 5 => 120
   | 6 => 151
   | 7 => 181
   | 8 => 212
   | 9 => 243
   | 10 => 273
   | 11 => 304
   | 12 => 334
   | _ => 0) + (if leap && decide (m > 2) then 1 else 0)

/-- Ordinal day of the year, 1-based. -/
def dayOfYear (dt : Date) : Int :=
  daysBeforeMonth (isLeap dt.year) dt.month + dt.day

/-- Auxiliary quantity of the ISO-8601 week computation: the weekday of
Dec 31 of year `y` in a fixed encoding. -/
def isoP (y : Int) : Int :=
  (y + y.fdiv 4 - y.fdiv 100 + y.fdiv 400) % 7

/-- Number of ISO weeks (52 or 53) in year `y`. -/
def isoWeeksInYear (y : Int) : Int :=
  if isoP y == 4 || isoP (y - 1) == 3 then 53 else 52

/-- `event_date.isocalendar()[1]`: the ISO-8601 week number. -/
def isoWeekOf (dt : Date) : Int :=
  let isoWd : Int := pythonWeekday dt + 1
  let w : Int := (10 + dayOfYear dt - isoWd).fdiv 7
  if w < 1 then isoWeeksInYear (dt.year - 1)
  else if w > isoWeeksInYear dt.year then 1
  else w

example : pythonWeekday ⟨1970, 1, 1⟩ = 3 := by decide
example : pythonWeekday ⟨2000, 1, 1⟩ = 5 := by decide
example : dayNameOf ⟨2025, 10, 28⟩ = "Tuesday" := by decide
example : dayNameOf ⟨2024, 2, 29⟩ = "Thursday" := by decide
example : isoWeekOf ⟨2025, 10, 28⟩ = 44 := by decide
example : isoWeekOf ⟨2021, 1, 1⟩ = 53 := by decide
example : isoWeekOf ⟨2023, 1, 1⟩ = 52 := by decide
example : isoWeekOf ⟨2015, 12, 28⟩ = 53 := by decide
example : isoWeekOf ⟨2016, 1, 4⟩ = 1 := by decide
example : isoWeekOf ⟨2012, 1, 1⟩ = 52 := by decide
example : mkDatetime 2024 2 29 = some ⟨2024, 2, 29⟩ := by decide
example : mkDatetime 2025 2 29 = none := by decide

/-! ## Filename date parsing (`parse_filename_date`, main_db.py lines 89-127) -/

/-- Python regex `\w` on ASCII input. -/
def isWordChar (c : Char) : Bool :=
  c.isAlphanum || c == '_'

/-- Python regex `\s` on ASCII input. -/
def isSpaceChar (c : Char) : Bool :=
  c == ' ' || c == '\t' || c == '\n' || c == '\r' || c == '\x0b' || c == '\x0c'

/-- Numeric value of two ASCII digit characters. -/
def digitVal2 (a b : Char) : Nat :=
  (a.toNat - 48) * 10 + (b.toNat - 48)

/-- Does the character list start with `.pdf` (case-insensitively, as under
`re.IGNORECASE`)?  `re.match` does not anchor the end, so trailing characters
are allowed. -/
def pdfDotSuffixAt : List Char → Bool
  | '.' :: p :: d :: f :: _ =>
    (p == 'p' || p == 'P') && (d == 'd' || d == 'D') && (f == 'f' || f == 'F')
  | _ => false

/-- `re.match(r'(\d{2})(\d{2})\s+(\w+)\.pdf', filename, re.IGNORECASE)`.
Because `\d`, `\s`, `\w` and `.` are pairwise disjoint character classes
here, greedy maximal munch with no backtracking is exact.  Returns the month
group, the day group, and the day-name group. -/
def matchFilename (s : List Char) : Option (Nat × Nat × List Char) :=
  match s with
  | c1 :: c2 :: c3 :: c4 :: rest =>
    if c1.isDigit && c2.isDigit && c3.isDigit && c4.isDigit then
      let ws := rest.takeWhile isSpaceChar
      let rest2 := rest.dropWhile isSpaceChar
      if ws.isEmpty then none
      else
        let word := rest2.takeWhile isWordChar
        let rest3 := rest2.dropWhile isWordChar
        if word.isEmpty then none
        else if pdfDotSuffixAt rest3 then
          some (digitVal2 c1 c2, digitVal2 c3 c4, word)
        else none
    else none
  | _ => none

/-- The dict returned by `parse_filename_date` on success. -/
structure DateInfo where
  event_date : Date
  day_of_week : String
  week_number : Int
  year : Int
deriving DecidableEq, Repr

/-- `parse_filename_date(filename)` with the ambient clock `now` made
explicit.  `none` models the empty dict `{}` (no match, or `ValueError`
from an invalid date, including an invalid date after the year roll). -/
def parse_filename_date (now : Date) (filename : String) : Option DateInfo :=
  match matchFilename filename.data with
  | none => none
  | some (month, day, _dayName) =>
    let year := now.year
    match mkDatetime year month day with
    | none => none
    | some event_date =>
      if rataDie now - rataDie event_date > 180 then
        match mkDatetime (year + 1) month day with
        | none => none
        | some rolled => some ⟨rolled, dayNameOf rolled, isoWeekOf rolled, year + 1⟩
      else
        some ⟨event_date, dayNameOf event_date, isoWeekOf event_date, year⟩

example : (parse_filename_date ⟨2025, 9, 1⟩ "1028 Tuesday.pdf").map (·.event_date) =
    some ⟨2025, 10, 28⟩ := by decide
example : (parse_filename_date ⟨2026, 6, 1⟩ "1028 Tuesday.pdf").map (·.event_date) =
    some ⟨2026, 10, 28⟩ := by decide
example : parse_filename_date ⟨2025, 9, 1⟩ "Tuesday 1028.pdf" = none := by decide
example : parse_filename_date ⟨2025, 9, 1⟩ "1345 Tuesday.pdf" = none := by decide

/-! ## Registry rows (`models.py`) and system state -/

/-- A row of the `beos` table (`models.BEO`); the columns the endpoints in
`main_db.py` read or write.  `updated_at` is modelled as an abstract clock
tick. -/
structure BEORow where
  id : Nat
  session_id : String
  filename : String
  beo_number : Option String
  event_date : Option Date
  day_of_week : Option String
  week_number : Option Int
  year : Option Int
  order_position : Int
  status : String
  file_type : String
  is_active : Bool
  total_pages : Nat
  updated_at : Nat
deriving DecidableEq, Repr

/-- A row of the `beo_pages` table (`models.BEOPage`). -/
structure BEOPageRow where
  beo_id : Nat
  page_index : Int
  original_order : Int
  thumbnail_path : Option String
  high_res_path : Option String
deriving DecidableEq, Repr

/-- A row of the `annotations` table (`models.Annotation`); the canvas JSON
payload is opaque to the backend and modelled as a string. -/
structure AnnotationRow where
  beo_id : Nat
  page_index : Int
  canvas_data : String
  updated_at : Nat
deriving DecidableEq, Repr

/-- The committed relational state. -/
structure Registry where
  beos : List BEORow
  pages : List BEOPageRow
  annotations : List AnnotationRow
deriving DecidableEq, Repr

/-- The file-system artifact store (`storage/originals`, `storage/thumbnails`,
`storage/high_res`); PDF bytes and images are opaque strings. -/
structure Disk where
  originals : List (String × String)
  thumbnails : List String
  highRes : List String
deriving DecidableEq, Repr

/-- Committed registry plus artifact store. -/
structure SysState where
  registry : Registry
  disk : Disk
deriving DecidableEq, Repr

/-- The exceptions the handlers can raise: `HTTPException`, `FileNotFoundError`
from `open()`, exceptions out of `convert_from_bytes`, and `IndexError` from
list indexing. -/
inductive Exc where
  | httpException (status : Nat) (detail : String)
  | fileNotFound (path : String)
  | pdfError (msg : String)
  | indexError
deriving DecidableEq, Repr

/-- The HTTP response FastAPI produces for a raised exception: an
`HTTPException` keeps its status and detail, every other unhandled exception
becomes a bare 500 Internal Server Error. -/
def httpResponse : Exc → Nat × String
  | .httpException s d => (s, d)
  | _ => (500, "Internal Server Error")

/-- Python `str(e)` for the modelled exceptions (starlette renders an
`HTTPException` as "status: detail"). -/
def excMsg : Exc → String
  | .httpException s d => toString s ++ ": " ++ d
  | .fileNotFound p => "No such file or directory: " ++ p
  | .pdfError m => m
  | .indexError => "list index out of range"

/-- Replace the first element satisfying `p` (SQLAlchemy `.first()` followed
by an in-place mutation of the returned row). -/
def updateFirst (p : α → Bool) (f : α → α) : List α → List α
  | [] => []
  | x :: xs => if p x then f x :: xs else x :: updateFirst p f xs

/-- Python list indexing `xs[i]`: negative indices count from the end,
out-of-range access raises `IndexError`. -/
def pyIndex (xs : List String) (i : Int) : Except Exc String :=
  let j : Int := if i < 0 then i + xs.length else i
  if 0 ≤ j && j < xs.length then .ok (xs.getD j.toNat "") else .error .indexError

/-- Thumbnail artifact name `f"{session_id}_thumb_{idx}.jpg"`. -/
def thumbName (sid : String) (idx : Nat) : String :=
  sid ++ "_thumb_" ++ toString idx ++ ".jpg"

/-- High-res artifact name `f"{session_id}_highres_{idx}.jpg"`. -/
def highresName (sid : String) (idx : Int) : String :=
  sid ++ "_highres_" ++ toString idx ++ ".jpg"

/-! ## Endpoint embeddings (`main_db.py`)

Each handler becomes a pure function from the system state (plus the request
arguments, the ambient clock, the fresh identifiers produced by `uuid4()` /
the autoincrement primary key, and the rasterizer collaborator) to the new
system state and either a response or a raised exception.  `db.add`/`db.flush`
accumulate rows into a candidate registry and `db.commit()` publishes it; a
handler that raises before commit leaves the committed registry unchanged
(rollback, or session close at request teardown), while disk writes performed
before the raise persist. -/

/-- Python `filename.endswith('.pdf')` (case-sensitive). -/
def endsWithPdf (s : String) : Bool :=
  s.data.reverse.take 4 == ['f', 'd', 'p', '.']

/-- Response model `SessionResponse` (thumbnails stay opaque). -/
structure SessionResponse where
  session_id : String
  filename : String
  total_pages : Nat
  pages : List String
deriving DecidableEq, Repr

/-- The page rows bulk-created for a freshly registered document:
`page_index = original_order = idx` for `idx, img in enumerate(images)`. -/
def freshPageRows (beoId : Nat) (sid : String) (n : Nat) : List BEOPageRow :=
  (List.range n).map (fun (idx : Nat) =>
    { beo_id := beoId, page_index := (idx : Int), original_order := (idx : Int),
      thumbnail_path := some (thumbName sid idx), high_res_path := none })

/-- The thumbnail files written for a freshly registered document. -/
def freshThumbs (sid : String) (n : Nat) : List String :=
  (List.range n).map (thumbName sid)

/-- Body of the `try:` block of `upload_pdf` (lines 141-205). -/
def upload_pdf_try (rasterize : String → Except String (List String)) (now : Date)
    (clock : Nat) (sessionId : String) (nextId : Nat) (filename pdfBytes fileType : String)
    (st : SysState) : Disk × Except Exc (Registry × SessionResponse) :=
  if !endsWithPdf filename then
    (st.disk, .error (.httpException 400 "File must be a PDF"))
  else
    let disk1 := { st.disk with originals := st.disk.originals ++ [(sessionId, pdfBytes)] }
    match rasterize pdfBytes with
    | .error e => (disk1, .error (.pdfError e))
    | .ok images =>
      let dateInfo := parse_filename_date now filename
      let beo : BEORow :=
        { id := nextId, session_id := sessionId, filename := filename, beo_number := none,
          event_date := dateInfo.map (·.event_date),
          day_of_week := dateInfo.map (·.day_of_week),
          week_number := dateInfo.map (·.week_number),
          year := dateInfo.map (·.year),
          order_position := 0, status := "new", file_type := fileType, is_active := true,
          total_pages := images.length, updated_at := clock }
      let disk2 := { disk1 with thumbnails := disk1.thumbnails ++ freshThumbs sessionId images.length }
      let reg :=
        { st.registry with
          beos := st.registry.beos ++ [beo],
          pages := st.registry.pages ++ freshPageRows nextId sessionId images.length }
      (disk2, .ok (reg, { session_id := sessionId, filename := filename,
                          total_pages := images.length, pages := images }))

/-- `POST /api/upload-pdf` (lines 130-209): the `try:` body wrapped by
`except Exception: db.rollback(); raise HTTPException(500, ...)`. -/
def upload_pdf (rasterize : String → Except String (List String)) (now : Date)
    (clock : Nat) (sessionId : String) (nextId : Nat) (filename pdfBytes fileType : String)
    (st : SysState) : SysState × Except Exc SessionResponse :=
  match upload_pdf_try rasterize now clock sessionId nextId filename pdfBytes fileType st with
  | (d, .error e) =>
    ({ registry := st.registry, disk := d },
     .error (.httpException 500 ("PDF processing failed: " ++ excMsg e)))
  | (d, .ok (reg, resp)) => ({ registry := reg, disk := d }, .ok resp)

/-- One entry of the `upload_multiple_pdfs` request: an uploaded file plus
its entry in the `file_data` JSON (`eventDate = none` covers both an absent
entry and an unparseable date string, which the code treats alike), plus the
fresh identifiers generated for it. -/
structure MultiFileItem where
  filename : String
  pdfBytes : String
  eventDate : Option Date
  fileType : String
  sessionId : String
  nextId : Nat
deriving DecidableEq, Repr

/-- Body of the `try:` block of `upload_multiple_pdfs` (lines 228-331):
non-PDF filenames are skipped with `continue`; all rows are committed at the
end. -/
def upload_multiple_try (rasterize : String → Except String (List String)) (clock : Nat) :
    List MultiFileItem → Disk → Registry → Disk × Except Exc (Registry × Nat)
  | [], d, r => (d, .ok (r, 0))
  | f :: rest, d, r =>
    if !endsWithPdf f.filename then
      upload_multiple_try rasterize clock rest d r
    else
      let d1 := { d with originals := d.originals ++ [(f.sessionId, f.pdfBytes)] }
      match rasterize f.pdfBytes with
      | .error e => (d1, .error (.pdfError e))
      | .ok images =>
        let beo : BEORow :=
          { id := f.nextId, session_id := f.sessionId, filename := f.filename,
            beo_number := none,
            event_date := f.eventDate,
            day_of_week := f.eventDate.map dayNameOf,
            week_number := f.eventDate.map isoWeekOf,
            year := f.eventDate.map (·.year),
            order_position := 0, status := "new", file_type := f.fileType,
            is_active := true, total_pages := images.length, updated_at := clock }
        let d2 := { d1 with thumbnails := d1.thumbnails ++ freshThumbs f.sessionId images.length }
        let r1 :=
          { r with beos := r.beos ++ [beo],
                   pages := r.pages ++ freshPageRows f.nextId f.sessionId images.length }
        match upload_multiple_try rasterize clock rest d2 r1 with
        | (d3, .error e) => (d3, .error e)
        | (d3, .ok (r2, n)) => (d3, .ok (r2, n + 1))

/-- `POST /api/upload-multiple-pdfs` (lines 218-335). -/
def upload_multiple_pdfs (rasterize : String → Except String (List String)) (clock : Nat)
    (files : List MultiFileItem) (st : SysState) : SysState × Except Exc Nat :=
  match upload_multiple_try rasterize clock files st.disk st.registry with
  | (d, .error e) =>
    ({ registry := st.registry, disk := d },
     .error (.httpException 500 ("Multi-file upload failed: " ++ excMsg e)))
  | (d, .ok (r, n)) => ({ registry := r, disk := d }, .ok n)

/-- One entry of a `process_all_pages` request: the requested session id plus
the fresh identifiers for the document it derives. -/
structure ProcessAllItem where
  sessionId : String
  newSessionId : String
  newId : Nat
deriving DecidableEq, Repr

/-- Body of the `try:` block of `process_all_pages` (lines 349-422); items
whose session or original PDF is missing are skipped with `continue`. -/
def process_all_try (rasterizeHigh : String → Except String (List String)) (clock : Nat) :
    List ProcessAllItem → Disk → Registry → Disk × Except Exc Registry
  | [], d, r => (d, .ok r)
  | item :: rest, d, r =>
    match r.beos.find? (fun b => b.session_id == item.sessionId) with
    | none => process_all_try rasterizeHigh clock rest d r
    | some uploadBeo =>
      match d.originals.lookup item.sessionId with
      | none => process_all_try rasterizeHigh clock rest d r
      | some pdfBytes =>
        match rasterizeHigh pdfBytes with
        | .error e => (d, .error (.pdfError e))
        | .ok images =>
          let newBeo : BEORow :=
            { id := item.newId, session_id := item.newSessionId,
              filename := uploadBeo.filename, beo_number := some "BEO 1",
              event_date := uploadBeo.event_date, day_of_week := uploadBeo.day_of_week,
              week_number := uploadBeo.week_number, year := uploadBeo.year,
              order_position := 0, status := "ready_for_annotation",
              file_type := uploadBeo.file_type, is_active := true,
              total_pages := images.length, updated_at := clock }
          let newPages := (List.range images.length).map (fun (idx : Nat) =>
            { beo_id := item.newId, page_index := (idx : Int), original_order := (idx : Int),
              thumbnail_path := some (thumbName item.newSessionId idx),
              high_res_path := some (highresName item.newSessionId idx) : BEOPageRow })
          let d1 := { d with
            thumbnails := d.thumbnails ++ freshThumbs item.newSessionId images.length,
            highRes := d.highRes ++ (List.range images.length).map
              (fun idx => highresName item.newSessionId idx) }
          process_all_try rasterizeHigh clock rest d1
            { r with beos := r.beos ++ [newBeo], pages := r.pages ++ newPages }

/-- `POST /api/process-all-pages` (lines 342-426). -/
def process_all_pages (rasterizeHigh : String → Except String (List String)) (clock : Nat)
    (items : List ProcessAllItem) (st : SysState) : SysState × Except Exc Unit :=
  match process_all_try rasterizeHigh clock items st.disk st.registry with
  | (d, .error e) =>
    ({ registry := st.registry, disk := d },
     .error (.httpException 500 ("Processing failed: " ++ excMsg e)))
  | (d, .ok r) => ({ registry := r, disk := d }, .ok ())

/-- Response of `select_pages`. -/
structure SelectResponse where
  status : String
  selected_count : Nat
  message : String
deriving DecidableEq, Repr

/-- `POST /api/select-pages` (lines 429-445). -/
def select_pages (sessionId : String) (selectedPages : List Int) (clock : Nat)
    (st : SysState) : SysState × Except Exc SelectResponse :=
  match st.registry.beos.find? (fun b => b.session_id == sessionId) with
  | none => (st, .error (.httpException 404 "Session not found"))
  | some _ =>
    let beos1 := st.registry.beos.map (fun b =>
      if b.session_id == sessionId then { b with status := "selected", updated_at := clock }
      else b)
    ({ st with registry := { st.registry with beos := beos1 } },
     .ok { status := "success", selected_count := selectedPages.length,
           message := "Ready for high-res processing" })

/-- Response of `process_selected_pages`; `high_res_pages` is the JSON dict,
an insertion-ordered map from page index to image payload. -/
structure ProcessResponse where
  status : String
  processed_pages : Nat
  high_res_pages : List (Int × String)
deriving DecidableEq, Repr

/-- Python dict assignment `d[k] = v`: replace in place or append. -/
def dictInsert (k : Int) (v : String) : List (Int × String) → List (Int × String)
  | [] => [(k, v)]
  | (k2, v2) :: rest => if k2 == k then (k2, v) :: rest else (k2, v2) :: dictInsert k v rest

/-- The `for page_idx in selection.selected_pages:` loop of
`process_selected_pages` (lines 466-486).  Returns the disk, the pending page
rows, the response dict, and the exception if one was raised mid-loop. -/
def processLoop (sessionId : String) (beoId : Nat) (images : List String) :
    List Int → Disk → List BEOPageRow → List (Int × String) →
    Disk × List BEOPageRow × List (Int × String) × Option Exc
  | [], disk, pages, dict => (disk, pages, dict, none)
  | pageIdx :: rest, disk, pages, dict =>
    if pageIdx < (images.length : Int) then
      match pyIndex images pageIdx with
      | .error e => (disk, pages, dict, some e)
      | .ok img =>
        let fn := highresName sessionId pageIdx
        let disk1 := { disk with highRes := disk.highRes ++ [fn] }
        let pages1 := updateFirst (fun p => p.beo_id == beoId && p.page_index == pageIdx)
          (fun p => { p with high_res_path := some fn }) pages
        processLoop sessionId beoId images rest disk1 pages1 (dictInsert pageIdx img dict)
    else
      processLoop sessionId beoId images rest disk pages dict

/-- `POST /api/process-selected-pages` (lines 448-496).  No `try:` wrapper:
an exception mid-handler aborts the request before `db.commit()`, so the
uncommitted row changes are rolled back at session close, while disk writes
persist. -/
def process_selected_pages (rasterizeHigh : String → Except String (List String))
    (clock : Nat) (sessionId : String) (selectedPages : List Int) (st : SysState) :
    SysState × Except Exc ProcessResponse :=
  match st.registry.beos.find? (fun b => b.session_id == sessionId) with
  | none => (st, .error (.httpException 404 "Session not found"))
  | some beo =>
    match st.disk.originals.lookup sessionId with
    | none => (st, .error (.fileNotFound (sessionId ++ ".pdf")))
    | some pdfBytes =>
      match rasterizeHigh pdfBytes with
      | .error e => (st, .error (.pdfError e))
      | .ok images =>
        match processLoop sessionId beo.id images selectedPages st.disk st.registry.pages [] with
        | (disk1, _, _, some e) => ({ st with disk := disk1 }, .error e)
        | (disk1, pages1, dict, none) =>
          let beos1 := st.registry.beos.map (fun b =>
            if b.session_id == sessionId then
              { b with status := "ready_for_annotation", updated_at := clock }
            else b)
          ({ registry := { st.registry with beos := beos1, pages := pages1 }, disk := disk1 },
           .ok { status := "success", processed_pages := selectedPages.length,
                 high_res_pages := dict })

/-- Simple acknowledgement response. -/
structure Ack where
  status : String
deriving DecidableEq, Repr

/-- The `(Annotation.beo_id == ..., Annotation.page_index == ...)` filter of
the annotation upsert query. -/
def annKey (beoId : Nat) (pageIndex : Int) (a : AnnotationRow) : Bool :=
  a.beo_id == beoId && a.page_index == pageIndex

/-- Number of committed annotation rows for one (document, page) key. -/
def annCount (r : Registry) (beoId : Nat) (pageIndex : Int) : Nat :=
  List.countP (annKey beoId pageIndex) r.annotations

/-- `POST /api/save-annotation` (lines 499-529). -/
def save_annotation_route (sessionId : String) (pageIndex : Int) (payload : String) (clock : Nat)
    (st : SysState) : SysState × Except Exc Ack :=
  match st.registry.beos.find? (fun b => b.session_id == sessionId) with
  | none => (st, .error (.httpException 404 "Session not found"))
  | some beo =>
    let anns :=
      match st.registry.annotations.find? (annKey beo.id pageIndex) with
      | some _ =>
        updateFirst (annKey beo.id pageIndex)
          (fun a => { a with canvas_data := payload, updated_at := clock })
          st.registry.annotations
      | none =>
        st.registry.annotations ++
          [{ beo_id := beo.id, page_index := pageIndex, canvas_data := payload,
             updated_at := clock }]
    let beos1 := st.registry.beos.map (fun b =>
      if b.session_id == sessionId then { b with status := "annotated", updated_at := clock }
      else b)
    ({ st with registry := { st.registry with annotations := anns, beos := beos1 } },
     .ok { status := "success" })

/-- `PATCH /api/beos/metadata` (lines 865-889). -/
def update_beo_metadata (sessionId : String) (beoNumber : Option String)
    (eventDate : Option Date) (orderPosition : Option Int) (clock : Nat) (st : SysState) :
    SysState × Except Exc Ack :=
  match st.registry.beos.find? (fun b => b.session_id == sessionId) with
  | none => (st, .error (.httpException 404 "BEO not found"))
  | some _ =>
    let beos1 := st.registry.beos.map (fun b =>
      if b.session_id == sessionId then
        let b1 := match beoNumber with
          | some num => { b with beo_number := some num }
          | none => b
        let b2 := match eventDate with
          | some d =>
            { b1 with event_date := some d, day_of_week := some (dayNameOf d),
                      week_number := some (isoWeekOf d), year := some d.year }
          | none => b1
        let b3 := match orderPosition with
          | some p => { b2 with order_position := p }
          | none => b2
        { b3 with updated_at := clock }
      else b)
    ({ st with registry := { st.registry with beos := beos1 } },
     .ok { status := "success" })

/-- The fields `reorder_beo` writes onto the moved document (lines 902-908). -/
def reorderMoved (newDate : Date) (orderPosition : Int) (clock : Nat) (b : BEORow) : BEORow :=
  { b with event_date := some newDate, day_of_week := some (dayNameOf newDate),
           week_number := some (isoWeekOf newDate), year := some newDate.year,
           order_position := orderPosition, updated_at := clock }

/-- The ORDER BY relation of the same-day query. -/
def posLE (a b : BEORow) : Prop :=
  a.order_position ≤ b.order_position

instance : DecidableRel posLE :=
  fun a b => Int.decLe a.order_position b.order_position

instance : IsTotal BEORow posLE :=
  ⟨fun a b => Int.le_total a.order_position b.order_position⟩

instance : IsTrans BEORow posLE :=
  ⟨fun _ _ _ => Int.le_trans⟩

/-- The other active documents on the target date, in ascending
`order_position` order (the `same_day_beos` query, lines 911-915; the session
uses `autoflush=False`, so the query sees the committed rows and excludes the
moved document by session id; ORDER BY leaves ties in an unspecified order,
modelled by a stable sort). -/
def sameDayBeos (st : SysState) (sessionId : String) (newDate : Date) : List BEORow :=
  (st.registry.beos.filter (fun b =>
    b.event_date == some newDate && b.session_id != sessionId && b.is_active)).insertionSort
    posLE

/-- The renumbering of lines 918-922: the document at index `idx` of
`same_day_beos` receives position `idx + 1` if `idx >= order_position`,
else position `idx`. -/
def reorderRank (orderPosition : Int) (idx : Nat) : Int :=
  if orderPosition ≤ (idx : Int) then (idx : Int) + 1 else (idx : Int)

/-- `POST /api/beos/reorder` (lines 892-926). -/
def reorder_beo (sessionId : String) (newDate : Date) (orderPosition : Int) (clock : Nat)
    (st : SysState) : SysState × Except Exc Ack :=
  match st.registry.beos.find? (fun b => b.session_id == sessionId) with
  | none => (st, .error (.httpException 404 "BEO not found"))
  | some _ =>
    let ranks := (sameDayBeos st sessionId newDate).enum.map
      (fun p => (p.2.session_id, reorderRank orderPosition p.1))
    let beos1 := st.registry.beos.map (fun b =>
      if b.session_id == sessionId then reorderMoved newDate orderPosition clock b
      else
        match ranks.lookup b.session_id with
        | some q => { b with order_position := q }
        | none => b)
    ({ st with registry := { st.registry with beos := beos1 } },
     .ok { status := "success" })

/-- The `for new_idx, original_idx in enumerate(data.page_indices):` loop of
`create_beo_from_pages` (lines 701-726). -/
def createPagesLoop (sid : String) (beoId : Nat) (images : List String) :
    List (Nat × Int) → Disk → List BEOPageRow →
    Disk × List BEOPageRow × Option Exc
  | [], disk, acc => (disk, acc, none)
  | (newIdx, origIdx) :: rest, disk, acc =>
    if origIdx < (images.length : Int) then
      match pyIndex images origIdx with
      | .error e => (disk, acc, some e)
      | .ok _img =>
        let hfn := highresName sid (newIdx : Int)
        let tfn := thumbName sid newIdx
        let disk1 := { disk with highRes := disk.highRes ++ [hfn],
                                 thumbnails := disk.thumbnails ++ [tfn] }
        let row : BEOPageRow :=
          { beo_id := beoId, page_index := (newIdx : Int), original_order := origIdx,
            thumbnail_path := some tfn, high_res_path := some hfn }
        createPagesLoop sid beoId images rest disk1 (acc ++ [row])
    else
      createPagesLoop sid beoId images rest disk acc

/-- `POST /api/beos/create-from-pages` (lines 664-730).  No `try:` wrapper:
a raised exception aborts before `db.commit()`. -/
def create_beo_from_pages (rasterizeHigh : String → Except String (List String))
    (parentSessionId beoNumber : String) (pageIndices : List Int) (orderPosition : Int)
    (newSessionId : String) (nextId : Nat) (clock : Nat) (st : SysState) :
    SysState × Except Exc (String × String) :=
  match st.registry.beos.find? (fun b => b.session_id == parentSessionId) with
  | none => (st, .error (.httpException 404 "Parent session not found"))
  | some parent =>
    match st.disk.originals.lookup parentSessionId with
    | none => (st, .error (.fileNotFound (parentSessionId ++ ".pdf")))
    | some pdfBytes =>
      match rasterizeHigh pdfBytes with
      | .error e => (st, .error (.pdfError e))
      | .ok images =>
        let newBeo : BEORow :=
          { id := nextId, session_id := newSessionId, filename := parent.filename,
            beo_number := some beoNumber, event_date := parent.event_date,
            day_of_week := parent.day_of_week, week_number := parent.week_number,
            year := parent.year, order_position := orderPosition,
            status := "ready_for_annotation", file_type := parent.file_type,
            is_active := true, total_pages := pageIndices.length, updated_at := clock }
        match createPagesLoop newSessionId nextId images pageIndices.enum st.disk [] with
        | (disk1, _, some e) => ({ st with disk := disk1 }, .error e)
        | (disk1, newPages, none) =>
          let reg1 :=
            { st.registry with
              beos := st.registry.beos ++ [newBeo],
              pages := st.registry.pages ++ newPages }
          ({ registry := reg1, disk := disk1 }, .ok (newSessionId, beoNumber))

/-- `DELETE /api/beos/{session_id}` (lines 929-946). -/
def delete_beo (sessionId : String) (st : SysState) : SysState × Except Exc Ack :=
  match st.registry.beos.find? (fun b => b.session_id == sessionId) with
  | none => (st, .error (.httpException 404 "BEO not found"))
  | some beo =>
    ({ st with registry :=
        { beos := st.registry.beos.filter (fun b => b.id != beo.id),
          pages := st.registry.pages.filter (fun p => p.beo_id != beo.id),
          annotations := st.registry.annotations.filter (fun a => a.beo_id != beo.id) } },
     .ok { status := "success" })

/-! ## Fixtures for witnesses and counterexamples -/

/-- Empty system state. -/
def emptyState : SysState :=
  { registry := { beos := [], pages := [], annotations := [] },
    disk := { originals := [], thumbnails := [], highRes := [] } }

/-- A concrete document row used in concrete scenarios. -/
def sampleBeo (id : Nat) (sid : String) (ed : Option Date) (pos : Int) : BEORow :=
  { id := id, session_id := sid, filename := "f.pdf", beo_number := none,
    event_date := ed, day_of_week := ed.map dayNameOf, week_number := ed.map isoWeekOf,
    year := ed.map (·.year), order_position := pos, status := "new", file_type := "daily",
    is_active := true, total_pages := 1, updated_at := 0 }

/-- The HTTP status/detail a client observes for a handler result. -/
def responseOf {α : Type} (r : Except Exc α) : Nat × String :=
  match r with
  | .error e => httpResponse e
  | .ok _ => (200, "ok")

/-! ## C7: non-PDF uploads -/

/-- C7 counterexample: uploading `menu.txt` is rejected with HTTP 500
("PDF processing failed: 400: ..."), not with the claimed HTTP 400 -- the
catch-all `except Exception` re-wraps the inner 400 `HTTPException` -- though
no state is persisted. -/
theorem upload_pdf_non_pdf_counterexample :
    responseOf (upload_pdf (fun _ => .ok ["img"]) ⟨2025, 1, 1⟩ 0 "S" 1 "menu.txt" "b"
        "daily" emptyState).2 =
      (500, "PDF processing failed: 400: File must be a PDF") ∧
    (upload_pdf (fun _ => .ok ["img"]) ⟨2025, 1, 1⟩ 0 "S" 1 "menu.txt" "b"
        "daily" emptyState).1 = emptyState := by
  decide

/-- C7 (amended): an upload whose filename does not end in `.pdf` fails before
any persistence (registry and artifact store untouched), but the failure is
the generic HTTP 500 processing failure wrapping the swallowed 400, not a
distinct 400 validation error. -/
theorem upload_pdf_rejects_non_pdf (rasterize : String → Except String (List String))
    (now : Date) (clock : Nat) (sessionId : String) (nextId : Nat)
    (filename pdfBytes fileType : String) (st : SysState)
    (h : endsWithPdf filename = false) :
    (upload_pdf rasterize now clock sessionId nextId filename pdfBytes fileType st).1 = st ∧
    (upload_pdf rasterize now clock sessionId nextId filename pdfBytes fileType st).2 =
      .error (.httpException 500 "PDF processing failed: 400: File must be a PDF") := by
  unfold upload_pdf upload_pdf_try
  simp only [h, Bool.not_false, if_true]
  exact ⟨trivial, by decide⟩

/-- C7 witness: the amended theorem applied to the concrete `menu.txt` upload. -/
theorem upload_pdf_rejects_non_pdf_witness :
    (upload_pdf (fun _ => .ok ["img"]) ⟨2025, 1, 1⟩ 0 "S" 1 "menu.txt" "b" "daily"
        emptyState).1 = emptyState ∧
    (upload_pdf (fun _ => .ok ["img"]) ⟨2025, 1, 1⟩ 0 "S" 1 "menu.txt" "b" "daily"
        emptyState).2 =
      .error (.httpException 500 "PDF processing failed: 400: File must be a PDF") :=
  upload_pdf_rejects_non_pdf (fun _ => .ok ["img"]) ⟨2025, 1, 1⟩ 0 "S" 1 "menu.txt" "b"
    "daily" emptyState (by decide)

/-! ## C3: ingest atomicity -/

/-- C3: registry writes of one ingest are all-or-nothing: a failed upload
(bad extension, or the rasterizer throwing) leaves the committed registry
exactly as it was, and a successful upload commits the document row together
with one page row per rasterized page. -/
theorem upload_pdf_registry_atomic (rasterize : String → Except String (List String))
    (now : Date) (clock : Nat) (sessionId : String) (nextId : Nat)
    (filename pdfBytes fileType : String) (st : SysState) :
    (∀ st' e, upload_pdf rasterize now clock sessionId nextId filename pdfBytes fileType st =
        (st', .error e) → st'.registry = st.registry) ∧
    (∀ st' resp, upload_pdf rasterize now clock sessionId nextId filename pdfBytes fileType st =
        (st', .ok resp) →
      ∃ images beo, rasterize pdfBytes = .ok images ∧
        beo.id = nextId ∧ beo.session_id = sessionId ∧ beo.total_pages = images.length ∧
        st'.registry.beos = st.registry.beos ++ [beo] ∧
        st'.registry.pages = st.registry.pages ++ freshPageRows nextId sessionId images.length ∧
        st'.registry.annotations = st.registry.annotations ∧
        resp.total_pages = images.length) := by
  constructor
  · intro st' e h
    unfold upload_pdf upload_pdf_try at h
    cases hE : endsWithPdf filename with
    | false =>
      simp only [hE, Bool.not_false, if_true] at h
      injection h with h1 h2
      rw [← h1]
    | true =>
      simp only [hE, Bool.not_true, Bool.false_eq_true, if_false] at h
      cases hR : rasterize pdfBytes with
      | error e2 =>
        simp only [hR] at h
        injection h with h1 h2
        rw [← h1]
      | ok images =>
        simp only [hR] at h
        injection h with h1 h2
        cases h2
  · intro st' resp h
    unfold upload_pdf upload_pdf_try at h
    cases hE : endsWithPdf filename with
    | false =>
      simp only [hE, Bool.not_false, if_true] at h
      injection h with h1 h2
      cases h2
    | true =>
      simp only [hE, Bool.not_true, Bool.false_eq_true, if_false] at h
      cases hR : rasterize pdfBytes with
      | error e2 =>
        simp only [hR] at h
        injection h with h1 h2
        cases h2
      | ok images =>
        simp only [hR] at h
        injection h with h1 h2
        injection h2 with h3
        subst h1
        subst h3
        exact ⟨images, _, rfl, rfl, rfl, rfl, rfl, rfl, rfl, rfl⟩

/-- C3 witness: a rasterizer that throws leaves the registry of the empty
state unchanged. -/
theorem upload_pdf_registry_atomic_witness :
    (upload_pdf (fun _ => .error "boom") ⟨2025, 1, 1⟩ 0 "S" 1 "d.pdf" "b" "daily"
        emptyState).1.registry = emptyState.registry :=
  (upload_pdf_registry_atomic (fun _ => .error "boom") ⟨2025, 1, 1⟩ 0 "S" 1 "d.pdf" "b"
      "daily" emptyState).1
    (upload_pdf (fun _ => .error "boom") ⟨2025, 1, 1⟩ 0 "S" 1 "d.pdf" "b" "daily"
      emptyState).1
    (.httpException 500 "PDF processing failed: boom") (by decide)

/-! ## C9: SelectPages ignores the selected indices -/

/-- C9: the registry state after `select_pages` depends only on the session id
(the selected list is only counted): the pages, annotations and disk are
untouched, other documents are untouched, and the target document changes
only its status and its updated-at clock; the response reports the length of
the submitted list. -/
theorem select_pages_registry_independent (sessionId : String) (l1 l2 : List Int)
    (clock : Nat) (st : SysState) :
    (select_pages sessionId l1 clock st).1 = (select_pages sessionId l2 clock st).1 ∧
    (select_pages sessionId l1 clock st).1.registry.pages = st.registry.pages ∧
    (select_pages sessionId l1 clock st).1.registry.annotations = st.registry.annotations ∧
    (select_pages sessionId l1 clock st).1.disk = st.disk ∧
    (select_pages sessionId l1 clock st).1.registry.beos.length = st.registry.beos.length ∧
    (∀ b ∈ st.registry.beos, b.session_id ≠ sessionId →
        b ∈ (select_pages sessionId l1 clock st).1.registry.beos) ∧
    (∀ b ∈ st.registry.beos, b.session_id = sessionId →
        { b with status := "selected", updated_at := clock } ∈
          (select_pages sessionId l1 clock st).1.registry.beos) ∧
    (∀ resp, (select_pages sessionId l1 clock st).2 = .ok resp →
        resp.selected_count = l1.length) := by
  unfold select_pages
  cases hF : st.registry.beos.find? (fun b => b.session_id == sessionId) with
  | none =>
    simp only [hF]
    refine ⟨by trivial, by trivial, by trivial, by trivial, by trivial, ?_, ?_, ?_⟩
    · intro b hb _
      exact hb
    · intro b hb hbs
      exfalso
      have h2 := List.find?_eq_none.mp hF b hb
      simp [hbs] at h2
    · intro resp h
      cases h
  | some b0 =>
    simp only [hF]
    refine ⟨by trivial, by trivial, by trivial, by trivial, by simp, ?_, ?_, ?_⟩
    · intro b hb hbs
      exact List.mem_map.mpr ⟨b, hb, by simp [hbs]⟩
    · intro b hb hbs
      exact List.mem_map.mpr ⟨b, hb, by simp [hbs]⟩
    · intro resp h
      injection h with h1
      rw [← h1]

/-- A one-document fixture: document `P` (id 1) with one page and its
original PDF present on disk. -/
def stOne : SysState :=
  { registry := { beos := [sampleBeo 1 "P" none 0],
                  pages := [{ beo_id := 1, page_index := 0, original_order := 0,
                              thumbnail_path := some "t", high_res_path := none }],
                  annotations := [] },
    disk := { originals := [("P", "pdfbytes")], thumbnails := [], highRes := [] } }

/-- C9 witness: on the concrete one-document state, two calls with different
selected lists leave identical states, and the count echoes the list length. -/
theorem select_pages_registry_independent_witness :
    (select_pages "P" [0] 7 stOne).1 = (select_pages "P" [0, 5, 9] 7 stOne).1 ∧
    (∀ resp, (select_pages "P" [0] 7 stOne).2 = .ok resp → resp.selected_count = 1) :=
  ⟨(select_pages_registry_independent "P" [0] [0, 5, 9] 7 stOne).1,
   (select_pages_registry_independent "P" [0] [0, 5, 9] 7 stOne).2.2.2.2.2.2.2⟩

/-! ## C5: PromoteToHighRes failure modes -/

/-- The one-document fixture with the artifact store empty: the registry
references an original PDF that is no longer on disk. -/
def stMissing : SysState :=
  { registry := stOne.registry,
    disk := { originals := [], thumbnails := [], highRes := [] } }

/-- C5 counterexample: with the document present but its original PDF absent,
`process_selected_pages` dies on the bare `open()` with `FileNotFoundError`,
and the caller observes the same generic `(500, "Internal Server Error")` it
would observe for any other unhandled failure -- there is no distinct
ArtifactMissing condition. -/
theorem process_selected_missing_artifact_counterexample :
    (process_selected_pages (fun _ => .ok ["img"]) 7 "P" [0] stMissing).2 =
      .error (.fileNotFound "P.pdf") ∧
    responseOf (process_selected_pages (fun _ => .ok ["img"]) 7 "P" [0] stMissing).2 =
      (500, "Internal Server Error") ∧
    responseOf (process_selected_pages (fun _ => .ok ["img"]) 7 "P" [0] stMissing).2 =
      responseOf (Except.error (Exc.pdfError "any other crash") : Except Exc ProcessResponse) := by
  decide

/-- C5 (amended): an unknown session id fails with the distinct 404 NotFound;
a present document whose original PDF artifact is missing fails with an
unhandled `FileNotFoundError` that surfaces as the generic HTTP 500
(indistinguishable from other unhandled failures); both cases leave the
system state unchanged. -/
theorem process_selected_pages_missing_cases
    (rasterizeHigh : String → Except String (List String)) (clock : Nat)
    (sessionId : String) (sel : List Int) (st : SysState) :
    (st.registry.beos.find? (fun b => b.session_id == sessionId) = none →
      process_selected_pages rasterizeHigh clock sessionId sel st =
        (st, .error (.httpException 404 "Session not found"))) ∧
    (∀ beo, st.registry.beos.find? (fun b => b.session_id == sessionId) = some beo →
      st.disk.originals.lookup sessionId = none →
      process_selected_pages rasterizeHigh clock sessionId sel st =
        (st, .error (.fileNotFound (sessionId ++ ".pdf"))) ∧
      responseOf (process_selected_pages rasterizeHigh clock sessionId sel st).2 =
        (500, "Internal Server Error")) := by
  constructor
  · intro h
    unfold process_selected_pages
    simp only [h]
  · intro beo hb ho
    unfold process_selected_pages
    simp only [hb, ho]
    exact ⟨by trivial, by trivial⟩

/-- C5 witness: the amended theorem applied to the one-document fixtures. -/
theorem process_selected_pages_missing_cases_witness :
    process_selected_pages (fun _ => .ok ["img"]) 7 "Q" [0] stMissing =
      (stMissing, .error (.httpException 404 "Session not found")) ∧
    process_selected_pages (fun _ => .ok ["img"]) 7 "P" [0] stMissing =
      (stMissing, .error (.fileNotFound "P.pdf")) :=
  ⟨(process_selected_pages_missing_cases (fun _ => .ok ["img"]) 7 "Q" [0] stMissing).1
      (by decide),
   ((process_selected_pages_missing_cases (fun _ => .ok ["img"]) 7 "P" [0] stMissing).2
      (sampleBeo 1 "P" none 0) (by decide) (by decide)).1⟩

/-! ## C6: annotation upsert -/

/-- `updateFirst` never changes how many elements satisfy a predicate that
the update function preserves. -/
theorem countP_updateFirst (q p : α → Bool) (f : α → α) (hf : ∀ a, q (f a) = q a)
    (l : List α) : List.countP q (updateFirst p f l) = List.countP q l := by
  induction l with
  | nil => rfl
  | cons x xs ih =>
    cases hp : p x with
    | true => simp [updateFirst, hp, List.countP_cons, hf]
    | false => simp [updateFirst, hp, List.countP_cons, ih]

/-- `updateFirst` leaves the sublist selected by a predicate disjoint from the
update predicate untouched, provided the update preserves the predicate. -/
theorem filter_updateFirst_disjoint (q p : α → Bool) (f : α → α)
    (hdisj : ∀ a, p a = true → q a = false) (hf : ∀ a, q (f a) = q a) (l : List α) :
    List.filter q (updateFirst p f l) = List.filter q l := by
  induction l with
  | nil => rfl
  | cons x xs ih =>
    cases hp : p x with
    | true => simp [updateFirst, hp, List.filter_cons, hf, hdisj x hp]
    | false => simp [updateFirst, hp, List.filter_cons, ih]

/-- If at most one element of `l` satisfies the key `k`, then after updating
the first `k`-match with `f`, every `k`-element of the result satisfies any
property guaranteed by `f`. -/
theorem updateFirst_key_property (k : α → Bool) (f : α → α) (P : α → Prop)
    (hP : ∀ a, P (f a)) (l : List α)
    (hcount : List.countP k l ≤ 1) :
    ∀ a ∈ updateFirst k f l, k a = true → P a := by
  induction l with
  | nil => intro a ha; cases ha
  | cons x xs ih =>
    have hcons := List.countP_cons k x xs
    cases hx : k x with
    | true =>
      rw [hx] at hcons
      simp only [if_true] at hcons
      have hzero : List.countP k xs = 0 := by omega
      intro a ha hka
      simp only [updateFirst, hx, if_true] at ha
      rcases List.mem_cons.mp ha with h1 | h1
      · exact h1 ▸ hP x
      · exact absurd hka (List.countP_eq_zero.mp hzero a h1)
    | false =>
      rw [hx] at hcons
      simp only [Bool.false_eq_true, if_false] at hcons
      have hcount2 : List.countP k xs ≤ 1 := by omega
      intro a ha hka
      simp only [updateFirst, hx, Bool.false_eq_true, if_false] at ha
      rcases List.mem_cons.mp ha with h1 | h1
      · rw [h1] at hka; rw [hka] at hx; cases hx
      · exact ih hcount2 a h1 hka

/-- Mapping a row transformation that preserves `session_id` over the
document table commutes with the session-id lookup. -/
theorem find?_sessionId_map (F : BEORow → BEORow)
    (hF : ∀ b, (F b).session_id = b.session_id) (sid : String) (l : List BEORow) :
    (l.map F).find? (fun b => b.session_id == sid) =
      (l.find? (fun b => b.session_id == sid)).map F := by
  induction l with
  | nil => rfl
  | cons x xs ih =>
    cases hx : (x.session_id == sid) with
    | true =>
      rw [List.map_cons,
          @List.find?_cons_of_pos _ (fun b => b.session_id == sid) (F x) (List.map F xs)
            (by simp [hF, hx]),
          @List.find?_cons_of_pos _ (fun b => b.session_id == sid) x xs hx]
      rfl
    | false =>
      rw [List.map_cons,
          @List.find?_cons_of_neg _ (fun b => b.session_id == sid) (F x) (List.map F xs)
            (by simp [hF, hx]),
          @List.find?_cons_of_neg _ (fun b => b.session_id == sid) x xs (by simp [hx])]
      exact ih

/-- One `save_annotation_route` call on a state where the saved key has at most one
row: the key ends with exactly one row carrying the payload (insert when
absent, in-place update otherwise), other keys are untouched, and the
document is re-found with only its status and clock changed. -/
theorem save_annotation_step (sessionId : String) (pageIndex : Int) (payload : String)
    (clock : Nat) (st : SysState) (beo : BEORow)
    (hfind : st.registry.beos.find? (fun b => b.session_id == sessionId) = some beo)
    (hcount : annCount st.registry beo.id pageIndex ≤ 1) :
    annCount (save_annotation_route sessionId pageIndex payload clock st).1.registry beo.id
        pageIndex = 1 ∧
    (∀ a ∈ (save_annotation_route sessionId pageIndex payload clock st).1.registry.annotations,
        annKey beo.id pageIndex a = true → a.canvas_data = payload) ∧
    (∀ bid j, ¬(bid = beo.id ∧ j = pageIndex) →
        annCount (save_annotation_route sessionId pageIndex payload clock st).1.registry bid j =
          annCount st.registry bid j) ∧
    (save_annotation_route sessionId pageIndex payload clock st).1.registry.beos.find?
        (fun b => b.session_id == sessionId) =
      some { beo with status := "annotated", updated_at := clock } := by
  have hfound := List.find?_some hfind
  unfold save_annotation_route
  simp only [hfind]
  have hmap : (st.registry.beos.map (fun b =>
      if b.session_id == sessionId then { b with status := "annotated", updated_at := clock }
      else b)).find? (fun b => b.session_id == sessionId) =
      some { beo with status := "annotated", updated_at := clock } := by
    have hsid : beo.session_id = sessionId := by simpa using hfound
    rw [find?_sessionId_map _ (fun b => by
      cases h : (b.session_id == sessionId) <;> simp [h]), hfind]
    simp [hsid]
  cases hE : st.registry.annotations.find? (annKey beo.id pageIndex) with
  | none =>
    have hzero : List.countP (annKey beo.id pageIndex) st.registry.annotations = 0 :=
      List.countP_eq_zero.mpr (fun a ha => List.find?_eq_none.mp hE a ha)
    simp only [hE]
    refine ⟨?_, ?_, ?_, hmap⟩
    · simp [annCount, List.countP_append, hzero, annKey]
    · intro a ha hka
      rcases List.mem_append.mp ha with h1 | h1
      · exact absurd hka (List.countP_eq_zero.mp hzero a h1)
      · rcases List.mem_singleton.mp h1 with rfl
        rfl
    · intro bid j hkey
      simp only [annCount, List.countP_append]
      have hnew : annKey bid j
          { beo_id := beo.id, page_index := pageIndex, canvas_data := payload,
            updated_at := clock } = false := by
        cases hb : (beo.id == bid) with
        | false => simp [annKey, hb]
        | true =>
          cases hp : (pageIndex == j) with
          | false => simp [annKey, hb, hp]
          | true =>
            exact absurd ⟨(beq_iff_eq.mp hb).symm, (beq_iff_eq.mp hp).symm⟩ hkey
      simp [hnew]
  | some a0 =>
    have hpos : 0 < List.countP (annKey beo.id pageIndex) st.registry.annotations :=
      List.countP_pos_iff.mpr ⟨a0, List.mem_of_find?_eq_some hE, List.find?_some hE⟩
    simp only [hE]
    refine ⟨?_, ?_, ?_, hmap⟩
    · have := countP_updateFirst (annKey beo.id pageIndex) (annKey beo.id pageIndex)
        (fun a => { a with canvas_data := payload, updated_at := clock })
        (fun a => by simp [annKey]) st.registry.annotations
      simp only [annCount] at hcount ⊢
      omega
    · exact updateFirst_key_property (annKey beo.id pageIndex)
        (fun a => { a with canvas_data := payload, updated_at := clock })
        (fun a => a.canvas_data = payload) (fun a => rfl) st.registry.annotations hcount
    · intro bid j hkey
      simp only [annCount]
      exact countP_updateFirst (annKey bid j) (annKey beo.id pageIndex)
        (fun a => { a with canvas_data := payload, updated_at := clock })
        (fun a => by simp [annKey]) st.registry.annotations

/-- C6: SaveAnnotation upserts by (document, page): from a registry with at
most one annotation row per key, the first call leaves exactly one row for
the saved key (inserting if absent), a second identical call still leaves
exactly one row, that row carries the saved payload, and the
at-most-one-row-per-key property is preserved for every key. -/
theorem save_annotation_upsert_idempotent (sessionId : String) (pageIndex : Int)
    (payload : String) (c1 c2 : Nat) (st : SysState) (beo : BEORow)
    (hfind : st.registry.beos.find? (fun b => b.session_id == sessionId) = some beo)
    (hinv : ∀ bid j, annCount st.registry bid j ≤ 1) :
    annCount (save_annotation_route sessionId pageIndex payload c1 st).1.registry beo.id
        pageIndex = 1 ∧
    annCount ((save_annotation_route sessionId pageIndex payload c2
        (save_annotation_route sessionId pageIndex payload c1 st).1).1).registry beo.id
        pageIndex = 1 ∧
    (∀ a ∈ ((save_annotation_route sessionId pageIndex payload c2
        (save_annotation_route sessionId pageIndex payload c1 st).1).1).registry.annotations,
        annKey beo.id pageIndex a = true → a.canvas_data = payload) ∧
    (∀ bid j, annCount ((save_annotation_route sessionId pageIndex payload c2
        (save_annotation_route sessionId pageIndex payload c1 st).1).1).registry bid j ≤ 1) := by
  obtain ⟨h1count, h1pay, h1frame, h1find⟩ :=
    save_annotation_step sessionId pageIndex payload c1 st beo hfind (hinv beo.id pageIndex)
  obtain ⟨h2count, h2pay, h2frame, h2find⟩ :=
    save_annotation_step sessionId pageIndex payload c2
      (save_annotation_route sessionId pageIndex payload c1 st).1
      { beo with status := "annotated", updated_at := c1 } h1find (le_of_eq h1count)
  refine ⟨h1count, h2count, h2pay, ?_⟩
  intro bid j
  by_cases hkey : bid = beo.id ∧ j = pageIndex
  · obtain ⟨hb, hj⟩ := hkey
    subst hb
    subst hj
    exact le_of_eq h2count
  · rw [h2frame bid j hkey, h1frame bid j hkey]
    exact hinv bid j

/-- C6 witness: two identical saves on the one-document state leave exactly
one annotation row for (document 1, page 0). -/
theorem save_annotation_upsert_idempotent_witness :
    annCount ((save_annotation_route "P" 0 "ink" 2
        (save_annotation_route "P" 0 "ink" 1 stOne).1).1).registry 1 0 = 1 :=
  (save_annotation_upsert_idempotent "P" 0 "ink" 1 2 stOne (sampleBeo 1 "P" none 0)
      (by decide) (fun _ _ => by simp [annCount, stOne])).2.1

/-! ## C10: out-of-range selected indices in PromoteToHighRes -/

/-- `dictInsert` never creates a key that was neither inserted nor present. -/
theorem dictInsert_lookup_ne (k k2 : Int) (v : String) (d : List (Int × String))
    (hne : k2 ≠ k) : (dictInsert k v d).lookup k2 = d.lookup k2 := by
  induction d with
  | nil => simp [dictInsert, List.lookup, beq_eq_false_iff_ne.mpr hne]
  | cons x xs ih =>
    cases hx : (x.1 == k) with
    | true =>
      have : (k2 == x.1) = false := by
        rw [beq_eq_false_iff_ne]
        intro h
        exact hne (h.trans (beq_iff_eq.mp hx))
      simp [dictInsert, hx, List.lookup, this]
    | false =>
      cases hx2 : (k2 == x.1) with
      | true => simp [dictInsert, hx, List.lookup, hx2]
      | false => simp [dictInsert, hx, List.lookup, hx2, ih]

/-- Invariant of the `process_selected_pages` page loop: indices at or above
the rasterized page count raise nothing, touch no page row with that index,
and never enter the response dict. -/
theorem processLoop_skips_out_of_range (sessionId : String) (beoId : Nat)
    (images : List String) (sel : List Int) :
    ∀ disk pages dict,
      (∀ j ∈ sel, -(images.length : Int) ≤ j) →
      (processLoop sessionId beoId images sel disk pages dict).2.2.2 = none ∧
      (∀ i, (images.length : Int) ≤ i →
        ((processLoop sessionId beoId images sel disk pages dict).2.1.filter
            (fun p => p.page_index == i) = pages.filter (fun p => p.page_index == i)) ∧
        ((processLoop sessionId beoId images sel disk pages dict).2.2.1.lookup i =
          dict.lookup i)) := by
  induction sel with
  | nil =>
    intro disk pages dict hsel
    exact ⟨rfl, fun i hi => ⟨rfl, rfl⟩⟩
  | cons x rest ih =>
    intro disk pages dict hsel
    by_cases hx : x < (images.length : Int)
    · have hxlow : -(images.length : Int) ≤ x := hsel x (List.mem_cons_self x rest)
      have hidx : pyIndex images x = .ok (images.getD
          (if x < 0 then x + images.length else x).toNat "") := by
        unfold pyIndex
        have hj : (0 ≤ if x < 0 then x + images.length else x) ∧
            (if x < 0 then x + images.length else x) < images.length := by
          by_cases hneg : x < 0
          · simp only [hneg, if_true]
            omega
          · simp only [hneg, if_false]
            omega
        simp only [decide_eq_true_eq]
        rw [if_pos]
        simp [hj.1, hj.2]
      simp only [processLoop, hx, if_true, hidx]
      obtain ⟨hnone, hrest⟩ := ih _ _ _ (fun j hj => hsel j (List.mem_cons_of_mem x hj))
      refine ⟨hnone, fun i hi => ?_⟩
      obtain ⟨hpages, hdict⟩ := hrest i hi
      constructor
      · rw [hpages]
        apply filter_updateFirst_disjoint
        · intro p hp
          have hne : p.page_index = x := beq_iff_eq.mp ((Bool.and_eq_true _ _).mp hp).2
          rw [beq_eq_false_iff_ne, hne]
          omega
        · intro p
          rfl
      · rw [hdict]
        refine dictInsert_lookup_ne x i _ dict ?_
        omega
    · simp only [processLoop, hx, if_false]
      exact ih _ _ _ (fun j hj => hsel j (List.mem_cons_of_mem x hj))

/-- C10: in a PromoteToHighRes call on an existing document whose original
PDF is present, every selected index at or above the rasterized page count is
silently skipped: the call succeeds, no page row with that index changes, the
index is absent from the returned high-res map, and `processed_pages` still
counts the whole submitted list. -/
theorem process_selected_pages_skips_out_of_range
    (rasterizeHigh : String → Except String (List String)) (clock : Nat)
    (sessionId : String) (sel : List Int) (st : SysState) (beo : BEORow)
    (pdfBytes : String) (images : List String)
    (hfind : st.registry.beos.find? (fun b => b.session_id == sessionId) = some beo)
    (hdisk : st.disk.originals.lookup sessionId = some pdfBytes)
    (hraster : rasterizeHigh pdfBytes = .ok images)
    (hsel : ∀ j ∈ sel, -(images.length : Int) ≤ j) :
    ∃ resp, (process_selected_pages rasterizeHigh clock sessionId sel st).2 = .ok resp ∧
      resp.processed_pages = sel.length ∧
      (∀ i, (images.length : Int) ≤ i →
        resp.high_res_pages.lookup i = none ∧
        (process_selected_pages rasterizeHigh clock sessionId sel st).1.registry.pages.filter
            (fun p => p.page_index == i) =
          st.registry.pages.filter (fun p => p.page_index == i)) := by
  obtain ⟨hnone, hrest⟩ :=
    processLoop_skips_out_of_range sessionId beo.id images sel st.disk st.registry.pages [] hsel
  unfold process_selected_pages
  simp only [hfind, hdisk, hraster]
  cases hL : processLoop sessionId beo.id images sel st.disk st.registry.pages [] with
  | mk disk1 rest1 =>
    cases rest1 with
    | mk pages1 rest2 =>
      cases rest2 with
      | mk dict1 exc1 =>
        rw [hL] at hnone hrest
        simp only at hnone
        subst hnone
        refine ⟨_, rfl, rfl, fun i hi => ?_⟩
        obtain ⟨hpages, hdict⟩ := hrest i hi
        simp only at hpages hdict
        exact ⟨by simpa using hdict, by simpa using hpages⟩

/-- C10 witness: the skipping theorem at the concrete one-page document with
selected indices `[0, 5]`. -/
theorem process_selected_pages_skips_out_of_range_witness :
    ∃ resp, (process_selected_pages (fun _ => .ok ["img0"]) 7 "P" [0, 5] stOne).2 = .ok resp ∧
      resp.processed_pages = [0, 5].length ∧
      (∀ i, ((["img0"] : List String).length : Int) ≤ i →
        resp.high_res_pages.lookup i = none ∧
        (process_selected_pages (fun _ => .ok ["img0"]) 7 "P"
            [0, 5] stOne).1.registry.pages.filter (fun p => p.page_index == i) =
          stOne.registry.pages.filter (fun p => p.page_index == i)) :=
  process_selected_pages_skips_out_of_range (fun _ => .ok ["img0"]) 7 "P" [0, 5] stOne
    (sampleBeo 1 "P" none 0) "pdfbytes" ["img0"] (by decide) (by decide) rfl (by decide)

/-! ## C2: page_index density -/

/-- The `page_index` values of the rows belonging to one document. -/
def pageIndices (r : Registry) (beoId : Nat) : List Int :=
  (r.pages.filter (fun p => p.beo_id == beoId)).map (fun p => p.page_index)

/-- The density invariant of the specification: a document with `total` pages
has `page_index` values exactly 0..total-1, no gaps, no duplicates. -/
def pagesDense (r : Registry) (beoId : Nat) (total : Nat) : Prop :=
  (pageIndices r beoId).Perm ((List.range total).map Int.ofNat)

instance (r : Registry) (beoId : Nat) (total : Nat) : Decidable (pagesDense r beoId total) :=
  List.decidablePerm _ _

/-- C2 counterexample: splitting the one-page document `P` at the
out-of-range parent index 5 commits a new document with `total_pages = 1`
but zero page rows, so the density invariant fails on the new document. -/
theorem create_beo_from_pages_density_counterexample :
    (create_beo_from_pages (fun _ => .ok ["img0"]) "P" "BEO 7" [5] 0 "N" 9 3 stOne).2.isOk
      = true ∧
    (((create_beo_from_pages (fun _ => .ok ["img0"]) "P" "BEO 7" [5] 0 "N" 9 3
        stOne).1.registry.beos.find? (fun b => b.session_id == "N")).map
        (fun b => b.total_pages)) = some 1 ∧
    ¬ pagesDense (create_beo_from_pages (fun _ => .ok ["img0"]) "P" "BEO 7" [5] 0 "N" 9 3
        stOne).1.registry 9 1 := by
  decide

/-- A filtered projection is unchanged by `updateFirst` when the update
preserves both the filter and the projection. -/
theorem filter_map_updateFirst (q : α → Bool) (g : α → β) (p : α → Bool) (f : α → α)
    (hq : ∀ a, q (f a) = q a) (hg : ∀ a, g (f a) = g a) (l : List α) :
    ((updateFirst p f l).filter q).map g = (l.filter q).map g := by
  induction l with
  | nil => rfl
  | cons x xs ih =>
    cases hp : p x with
    | true =>
      simp only [updateFirst, hp, if_true, List.filter_cons]
      cases hqx : q x with
      | true => simp [hq, hqx, hg]
      | false => simp [hq, hqx]
    | false =>
      simp only [updateFirst, hp, Bool.false_eq_true, if_false, List.filter_cons]
      cases hqx : q x with
      | true => simp [hqx, ih]
      | false => simp [hqx, ih]

/-- The `process_selected_pages` page loop never changes which `page_index`
values a document owns. -/
theorem processLoop_pageIndices (sessionId : String) (beoId : Nat)
    (images : List String) (sel : List Int) :
    ∀ disk pages dict bid,
      (((processLoop sessionId beoId images sel disk pages dict).2.1.filter
          (fun p => p.beo_id == bid)).map (fun p => p.page_index)) =
        ((pages.filter (fun p => p.beo_id == bid)).map (fun p => p.page_index)) := by
  induction sel with
  | nil =>
    intro disk pages dict bid
    rfl
  | cons x rest ih =>
    intro disk pages dict bid
    by_cases hx : x < (images.length : Int)
    · cases hidx : pyIndex images x with
      | error e =>
        simp only [processLoop, hx, if_true, hidx]
      | ok img =>
        simp only [processLoop, hx, if_true, hidx]
        rw [ih]
        apply filter_map_updateFirst
        · intro a
          rfl
        · intro a
          rfl
    · simp only [processLoop, hx, if_false]
      exact ih disk pages dict bid

/-- `process_selected_pages` never changes which `page_index` values any
document owns, on any path (success, 404, missing artifact, mid-loop raise). -/
theorem process_selected_pages_pageIndices
    (rasterizeHigh : String → Except String (List String)) (clock : Nat)
    (sessionId : String) (sel : List Int) (st : SysState) (bid : Nat) :
    pageIndices (process_selected_pages rasterizeHigh clock sessionId sel st).1.registry bid =
      pageIndices st.registry bid := by
  unfold process_selected_pages
  cases hF : st.registry.beos.find? (fun b => b.session_id == sessionId) with
  | none => rfl
  | some beo =>
    simp only [hF]
    cases hD : st.disk.originals.lookup sessionId with
    | none => rfl
    | some pdfBytes =>
      simp only [hD]
      cases hR : rasterizeHigh pdfBytes with
      | error e => rfl
      | ok images =>
        simp only [hR]
        have hloop := processLoop_pageIndices sessionId beo.id images sel st.disk
          st.registry.pages [] bid
        cases hL : processLoop sessionId beo.id images sel st.disk st.registry.pages [] with
        | mk disk1 rest1 =>
          cases rest1 with
          | mk pages1 rest2 =>
            cases rest2 with
            | mk dict1 exc1 =>
              rw [hL] at hloop
              simp only at hloop
              cases exc1 with
              | none => simpa [pageIndices] using hloop
              | some e => rfl

/-- The split-page loop with every parent index in range: no exception, and
the accumulated rows are exactly one row per (new index, parent index) pair. -/
theorem createPagesLoop_all_in_range (sid : String) (beoId : Nat) (images : List String)
    (ps : List (Nat × Int)) :
    ∀ disk acc,
      (∀ q ∈ ps, 0 ≤ q.2 ∧ q.2 < (images.length : Int)) →
      (createPagesLoop sid beoId images ps disk acc).2.1 =
        acc ++ ps.map (fun q =>
          { beo_id := beoId, page_index := (q.1 : Int), original_order := q.2,
            thumbnail_path := some (thumbName sid q.1),
            high_res_path := some (highresName sid (q.1 : Int)) : BEOPageRow }) ∧
      (createPagesLoop sid beoId images ps disk acc).2.2 = none := by
  induction ps with
  | nil =>
    intro disk acc h
    simp [createPagesLoop]
  | cons q rest ih =>
    intro disk acc h
    obtain ⟨n, i⟩ := q
    obtain ⟨hq0, hqlt⟩ := h (n, i) (List.mem_cons_self _ rest)
    simp only at hq0 hqlt
    have hneg : ¬ i < 0 := by omega
    have hidx : pyIndex images i = .ok (images.getD i.toNat "") := by
      unfold pyIndex
      simp only [hneg, if_false, decide_eq_true_eq]
      rw [if_pos]
      simp
      omega
    simp only [createPagesLoop, hqlt, if_true, hidx]
    obtain ⟨h1, h2⟩ := ih _ _ (fun q hq => h q (List.mem_cons_of_mem _ hq))
    refine ⟨?_, h2⟩
    rw [h1, List.append_assoc]
    rfl

/-- Appending the page rows of a fresh document after rows that all belong to
other documents: the new document owns exactly the appended rows. -/
theorem pageIndices_append (r extra : List BEOPageRow) (beoId : Nat)
    (hfresh : ∀ p ∈ r, p.beo_id ≠ beoId) (hall : ∀ p ∈ extra, p.beo_id = beoId) :
    ((r ++ extra).filter (fun p => p.beo_id == beoId)).map (fun p => p.page_index) =
      extra.map (fun p => p.page_index) := by
  rw [List.filter_append]
  have h1 : r.filter (fun p => p.beo_id == beoId) = [] :=
    List.filter_eq_nil_iff.mpr (fun p hp => by simp [hfresh p hp])
  have h2 : extra.filter (fun p => p.beo_id == beoId) = extra :=
    List.filter_eq_self.mpr (fun p hp => by simp [hall p hp])
  rw [h1, h2, List.nil_append]

/-- C2 (amended): after a successful Ingest the new document's page_index
values are exactly 0..total_pages-1; PromoteToHighRes preserves every
document's page_index multiset on every path; a successful SplitIntoDocument
yields a dense new document provided every requested parent index is within
the rasterized parent page range (an out-of-range index commits a document
whose total_pages counts the skipped row, violating density -- see the
counterexample). -/
theorem page_index_density
    (rasterize rasterizeHigh : String → Except String (List String)) :
    (∀ now clock sessionId nextId filename pdfBytes fileType st st' resp,
      (∀ p ∈ st.registry.pages, p.beo_id ≠ nextId) →
      upload_pdf rasterize now clock sessionId nextId filename pdfBytes fileType st =
        (st', .ok resp) →
      pagesDense st'.registry nextId resp.total_pages) ∧
    (∀ clock sessionId sel st bid total,
      pagesDense st.registry bid total →
      pagesDense (process_selected_pages rasterizeHigh clock sessionId sel st).1.registry
        bid total) ∧
    (∀ parentSid beoNumber pageIdx orderPos newSid nextId clock st st' r parent pdfBytes
        images,
      st.registry.beos.find? (fun b => b.session_id == parentSid) = some parent →
      st.disk.originals.lookup parentSid = some pdfBytes →
      rasterizeHigh pdfBytes = .ok images →
      (∀ i ∈ pageIdx, 0 ≤ i ∧ i < (images.length : Int)) →
      (∀ p ∈ st.registry.pages, p.beo_id ≠ nextId) →
      create_beo_from_pages rasterizeHigh parentSid beoNumber pageIdx orderPos newSid
        nextId clock st = (st', .ok r) →
      (∃ beo, st'.registry.beos = st.registry.beos ++ [beo] ∧ beo.id = nextId ∧
        beo.total_pages = pageIdx.length) ∧
      pagesDense st'.registry nextId pageIdx.length) := by
  refine ⟨?_, ?_, ?_⟩
  · intro now clock sessionId nextId filename pdfBytes fileType st st' resp hfresh heq
    unfold upload_pdf upload_pdf_try at heq
    cases hE : endsWithPdf filename with
    | false =>
      simp only [hE, Bool.not_false, if_true] at heq
      injection heq with h1 h2
      cases h2
    | true =>
      simp only [hE, Bool.not_true, Bool.false_eq_true, if_false] at heq
      cases hR : rasterize pdfBytes with
      | error e =>
        simp only [hR] at heq
        injection heq with h1 h2
        cases h2
      | ok images =>
        simp only [hR] at heq
        injection heq with h1 h2
        injection h2 with h3
        subst h1
        subst h3
        unfold pagesDense pageIndices
        rw [pageIndices_append st.registry.pages (freshPageRows nextId sessionId
            images.length) nextId hfresh (fun p hp => by
          unfold freshPageRows at hp
          obtain ⟨idx, hidx, rfl⟩ := List.mem_map.mp hp
          rfl)]
        unfold freshPageRows
        rw [List.map_map]
        exact List.Perm.refl _
  · intro clock sessionId sel st bid total h
    unfold pagesDense
    rw [show pageIndices (process_selected_pages rasterizeHigh clock sessionId sel
        st).1.registry bid = pageIndices st.registry bid from
      process_selected_pages_pageIndices rasterizeHigh clock sessionId sel st bid]
    exact h
  · intro parentSid beoNumber pageIdx orderPos newSid nextId clock st st' r parent pdfBytes
      images hfind hdisk hraster hrange hfresh heq
    have henum : ∀ q ∈ pageIdx.enum, 0 ≤ q.2 ∧ q.2 < (images.length : Int) :=
      fun q hq => hrange q.2 (List.snd_mem_of_mem_enum hq)
    obtain ⟨hrows, hexc⟩ := createPagesLoop_all_in_range newSid nextId images pageIdx.enum
      st.disk [] henum
    unfold create_beo_from_pages at heq
    simp only [hfind, hdisk, hraster] at heq
    cases hL : createPagesLoop newSid nextId images pageIdx.enum st.disk [] with
    | mk disk1 rest1 =>
      cases rest1 with
      | mk pages1 exc1 =>
        rw [hL] at heq hrows hexc
        simp only at heq hrows hexc
        subst hexc
        simp only at heq
        injection heq with h1 h2
        subst h1
        constructor
        · exact ⟨_, rfl, rfl, rfl⟩
        · unfold pagesDense pageIndices
          simp only
          subst hrows
          rw [List.nil_append]
          rw [pageIndices_append st.registry.pages _ nextId hfresh (fun p hp => by
            obtain ⟨q, hq, rfl⟩ := List.mem_map.mp hp
            rfl)]
          rw [List.map_map]
          have hcomp : ((fun p : BEOPageRow => p.page_index) ∘ (fun q : Nat × Int =>
              ({ beo_id := nextId, page_index := (q.1 : Int), original_order := q.2,
                 thumbnail_path := some (thumbName newSid q.1),
                 high_res_path := some (highresName newSid (q.1 : Int)) } : BEOPageRow))) =
              (Int.ofNat ∘ Prod.fst) := rfl
          rw [hcomp, ← List.map_map, List.enum_map_fst]

/-- C2 witness: density after a concrete ingest, promote, and split on the
one-document state. -/
theorem page_index_density_witness :
    pagesDense (upload_pdf (fun _ => .ok ["i", "j"]) ⟨2025, 1, 1⟩ 0 "S" 2 "d.pdf" "b"
        "daily" stOne).1.registry 2 2 ∧
    pagesDense (process_selected_pages (fun _ => .ok ["img0"]) 7 "P"
        [0] stOne).1.registry 1 1 ∧
    pagesDense (create_beo_from_pages (fun _ => .ok ["img0"]) "P" "B7" [0] 0 "N" 9 3
        stOne).1.registry 9 1 :=
  ⟨(page_index_density (fun _ => .ok ["i", "j"]) (fun _ => .ok ["img0"])).1 ⟨2025, 1, 1⟩ 0
      "S" 2 "d.pdf" "b" "daily" stOne
      (upload_pdf (fun _ => .ok ["i", "j"]) ⟨2025, 1, 1⟩ 0 "S" 2 "d.pdf" "b" "daily" stOne).1
      ⟨"S", "d.pdf", 2, ["i", "j"]⟩ (by decide) (by decide),
   (page_index_density (fun _ => .ok ["i", "j"]) (fun _ => .ok ["img0"])).2.1 7 "P" [0]
      stOne 1 1 (by decide),
   ((page_index_density (fun _ => .ok ["i", "j"]) (fun _ => .ok ["img0"])).2.2 "P" "B7" [0]
      0 "N" 9 3 stOne
      (create_beo_from_pages (fun _ => .ok ["img0"]) "P" "B7" [0] 0 "N" 9 3 stOne).1
      ("N", "B7") (sampleBeo 1 "P" none 0) "pdfbytes" ["img0"] (by decide) (by decide) rfl
      (by decide) (by decide) (by decide)).2⟩

/-! ## C4: filename date parsing -/

/-- A successful `datetime(y, m, d)` carries exactly the requested fields. -/
theorem mkDatetime_some (y : Int) (m d : Nat) (ev : Date)
    (h : mkDatetime y m d = some ev) : ev = ⟨y, m, d⟩ := by
  unfold mkDatetime at h
  split at h
  · injection h with h1
    exact h1.symm
  · cases h

/-- C4 counterexample: `"0229 Thursday.pdf"` parsed on 2024-12-01 -- the
filename matches the pattern, Feb 29 is a valid month/day in the (leap)
current year, and the date is more than 180 days in the past, so the claim
requires the year to roll to Feb 29 of 2025; but that date does not exist,
`datetime` raises `ValueError`, and `event_date` is left unset instead. -/
theorem parse_filename_leap_roll_counterexample :
    matchFilename ("0229 Thursday.pdf".data) = some (2, 29, "Thursday".data) ∧
    mkDatetime 2024 2 29 = some ⟨2024, 2, 29⟩ ∧
    rataDie ⟨2024, 12, 1⟩ - rataDie ⟨2024, 2, 29⟩ > 180 ∧
    parse_filename_date ⟨2024, 12, 1⟩ "0229 Thursday.pdf" = none := by
  decide

/-- C4 (amended): for a filename matching the `MMDD DayName .pdf` pattern,
ingest date parsing sets event_date to that month/day in the current year,
with day-of-week, ISO week number and year all derived from the resulting
date; if that date lies more than 180 days in the past, the year rolls
forward by one -- unless the rolled date does not exist (Feb 29 into a
non-leap year), in which case event_date is left unset, exactly as for an
invalid month/day or a non-matching filename; and an upload whose filename
yields no parsed date still succeeds, committing the document with
event_date, day_of_week, week_number and year all unset. -/
theorem parse_filename_date_cases (now : Date) (filename : String) :
    (matchFilename filename.data = none → parse_filename_date now filename = none) ∧
    (∀ m d w, matchFilename filename.data = some (m, d, w) →
      (mkDatetime now.year m d = none → parse_filename_date now filename = none) ∧
      (mkDatetime now.year m d = some ⟨now.year, m, d⟩ →
        (rataDie now - rataDie ⟨now.year, m, d⟩ ≤ 180 →
          parse_filename_date now filename =
            some ⟨⟨now.year, m, d⟩, dayNameOf ⟨now.year, m, d⟩,
              isoWeekOf ⟨now.year, m, d⟩, now.year⟩) ∧
        (rataDie now - rataDie ⟨now.year, m, d⟩ > 180 →
          (mkDatetime (now.year + 1) m d = none →
            parse_filename_date now filename = none) ∧
          (mkDatetime (now.year + 1) m d = some ⟨now.year + 1, m, d⟩ →
            parse_filename_date now filename =
              some ⟨⟨now.year + 1, m, d⟩, dayNameOf ⟨now.year + 1, m, d⟩,
                isoWeekOf ⟨now.year + 1, m, d⟩, now.year + 1⟩)))) ∧
    (∀ (rasterize : String → Except String (List String)) clock sessionId nextId pdfBytes
        fileType st images,
      endsWithPdf filename = true →
      parse_filename_date now filename = none →
      rasterize pdfBytes = .ok images →
      (upload_pdf rasterize now clock sessionId nextId filename pdfBytes fileType st).2.isOk
        = true ∧
      ∃ beo, (upload_pdf rasterize now clock sessionId nextId filename pdfBytes fileType
          st).1.registry.beos = st.registry.beos ++ [beo] ∧
        beo.event_date = none ∧ beo.day_of_week = none ∧ beo.week_number = none ∧
        beo.year = none) := by
  refine ⟨?_, ?_, ?_⟩
  · intro h
    unfold parse_filename_date
    simp only [h]
  · intro m d w hmatch
    constructor
    · intro hmk
      unfold parse_filename_date
      simp only [hmatch, hmk]
    · intro hmk
      constructor
      · intro hle
        unfold parse_filename_date
        simp only [hmatch, hmk]
        rw [if_neg (by omega)]
      · intro hgt
        constructor
        · intro hmk2
          unfold parse_filename_date
          simp only [hmatch, hmk, hmk2]
          rw [if_pos (by omega)]
        · intro hmk2
          unfold parse_filename_date
          simp only [hmatch, hmk, hmk2]
          rw [if_pos (by omega)]
  · intro rasterize clock sessionId nextId pdfBytes fileType st images hE hparse hR
    unfold upload_pdf upload_pdf_try
    simp only [hE, Bool.not_true, Bool.false_eq_true, if_false, hR, hparse]
    exact ⟨rfl, _, rfl, rfl, rfl, rfl, rfl⟩

/-- C4 witness: the concrete spec test `"1028 Tuesday.pdf"`, parsed with the
clock inside the 180-day window and beyond it, and a non-matching upload that
still succeeds. -/
theorem parse_filename_date_cases_witness :
    parse_filename_date ⟨2025, 9, 1⟩ "1028 Tuesday.pdf" =
      some ⟨⟨2025, 10, 28⟩, dayNameOf ⟨2025, 10, 28⟩, isoWeekOf ⟨2025, 10, 28⟩, 2025⟩ ∧
    parse_filename_date ⟨2025, 12, 1⟩ "0102 Friday.pdf" =
      some ⟨⟨2026, 1, 2⟩, dayNameOf ⟨2026, 1, 2⟩, isoWeekOf ⟨2026, 1, 2⟩, 2026⟩ ∧
    (upload_pdf (fun _ => .ok ["img"]) ⟨2025, 9, 1⟩ 0 "S" 2 "menu specials.pdf" "b" "daily"
        stOne).2.isOk = true :=
  ⟨(((parse_filename_date_cases ⟨2025, 9, 1⟩ "1028 Tuesday.pdf").2.1 10 28 "Tuesday".data
      (by decide)).2 (by decide)).1 (by decide),
   ((((parse_filename_date_cases ⟨2025, 12, 1⟩ "0102 Friday.pdf").2.1 1 2 "Friday".data
      (by decide)).2 (by decide)).2 (by decide)).2 (by decide),
   ((parse_filename_date_cases ⟨2025, 9, 1⟩ "menu specials.pdf").2.2 (fun _ => .ok ["img"])
      0 "S" 2 "pdf" "daily" stOne ["img"] (by decide) (by decide) rfl).1⟩

/-! ## C8: derived calendar fields stay consistent with event_date -/

/-- Consistency of one document row: when `event_date` is set the derived
triple is exactly derived from it, and when unset the triple is unset. -/
def rowConsistent (b : BEORow) : Bool :=
  match b.event_date with
  | some d =>
    b.day_of_week == some (dayNameOf d) && b.week_number == some (isoWeekOf d) &&
      b.year == some d.year
  | none => b.day_of_week == none && b.week_number == none && b.year == none

/-- Consistency of the whole document table. -/
def registryConsistent (r : Registry) : Bool :=
  r.beos.all rowConsistent

/-- Row-wise consistency survives mapping a row transformation that sends
consistent rows to consistent rows. -/
theorem registryConsistent_map (r : List BEORow) (F : BEORow → BEORow)
    (hF : ∀ b, rowConsistent b = true → rowConsistent (F b) = true)
    (h : r.all rowConsistent = true) : (r.map F).all rowConsistent = true := by
  rw [List.all_map, List.all_eq_true] at *
  intro b hb
  exact hF b (h b hb)

/-- Row-wise consistency survives filtering. -/
theorem registryConsistent_filter (r : List BEORow) (q : BEORow → Bool)
    (h : r.all rowConsistent = true) : (r.filter q).all rowConsistent = true := by
  rw [List.all_eq_true] at *
  intro b hb
  exact h b (List.mem_of_mem_filter hb)

/-- A successful filename parse returns a dict whose derived fields are
derived from its event_date. -/
theorem parse_filename_date_consistent (now : Date) (filename : String) (info : DateInfo)
    (h : parse_filename_date now filename = some info) :
    info.day_of_week = dayNameOf info.event_date ∧
    info.week_number = isoWeekOf info.event_date ∧ info.year = info.event_date.year := by
  unfold parse_filename_date at h
  cases hm : matchFilename filename.data with
  | none => rw [hm] at h; cases h
  | some g =>
    obtain ⟨m, d, w⟩ := g
    rw [hm] at h
    simp only at h
    cases hmk : mkDatetime now.year m d with
    | none => rw [hmk] at h; cases h
    | some ev =>
      rw [hmk] at h
      simp only at h
      by_cases hgt : rataDie now - rataDie ev > 180
      · rw [if_pos hgt] at h
        cases hmk2 : mkDatetime (now.year + 1) m d with
        | none => rw [hmk2] at h; cases h
        | some ev2 =>
          rw [hmk2] at h
          injection h with h1
          subst h1
          have := mkDatetime_some (now.year + 1) m d ev2 hmk2
          subst this
          exact ⟨rfl, rfl, rfl⟩
      · rw [if_neg hgt] at h
        injection h with h1
        subst h1
        have := mkDatetime_some now.year m d ev hmk
        subst this
        exact ⟨rfl, rfl, rfl⟩

/-- A successful upload commits a consistent document row. -/
theorem upload_pdf_consistent (rasterize : String → Except String (List String))
    (now : Date) (clock : Nat) (sessionId : String) (nextId : Nat)
    (filename pdfBytes fileType : String) (st : SysState)
    (h : registryConsistent st.registry = true) :
    registryConsistent (upload_pdf rasterize now clock sessionId nextId filename pdfBytes
      fileType st).1.registry = true := by
  unfold upload_pdf upload_pdf_try
  cases hE : endsWithPdf filename with
  | false => simpa [hE] using h
  | true =>
    cases hR : rasterize pdfBytes with
    | error e => simpa [hE, hR] using h
    | ok images =>
      simp only [hE, Bool.not_true, Bool.false_eq_true, if_false, hR]
      unfold registryConsistent at h ⊢
      simp only [List.all_append, Bool.and_eq_true, List.all_cons, List.all_nil,
        Bool.and_true]
      refine ⟨h, ?_⟩
      cases hpd : parse_filename_date now filename with
      | none => simp [rowConsistent]
      | some info =>
        obtain ⟨h1, h2, h3⟩ := parse_filename_date_consistent now filename info hpd
        simp [rowConsistent, h1, h2, h3]

/-- Appending one consistent row (with any page-table change) keeps the
table consistent. -/
theorem registryConsistent_append_row (r : Registry) (beo : BEORow)
    (pages2 : List BEOPageRow) (h : registryConsistent r = true)
    (hb : rowConsistent beo = true) :
    registryConsistent { r with beos := r.beos ++ [beo], pages := pages2 } = true := by
  unfold registryConsistent at *
  simp [List.all_append, h, hb]

/-- Every registry the multi-file upload loop can return is consistent. -/
theorem upload_multiple_try_consistent (rasterize : String → Except String (List String))
    (clock : Nat) (files : List MultiFileItem) :
    ∀ d r, registryConsistent r = true →
      ∀ d2 r2 n, upload_multiple_try rasterize clock files d r = (d2, .ok (r2, n)) →
        registryConsistent r2 = true := by
  induction files with
  | nil =>
    intro d r h d2 r2 n heq
    simp only [upload_multiple_try] at heq
    injection heq with h1 h2
    injection h2 with h3
    injection h3 with h4 h5
    rw [← h4]
    exact h
  | cons f rest ih =>
    intro d r h d2 r2 n heq
    unfold upload_multiple_try at heq
    split at heq
    · exact ih _ _ h _ _ _ heq
    · split at heq
      · injection heq with h1 h2
        cases h2
      · rename_i images hR
        dsimp only at heq
        split at heq
        · injection heq with h1 h2
          cases h2
        · rename_i d3 r3 n3 hrec
          injection heq with h1 h2
          injection h2 with h3
          injection h3 with h4 h5
          subst h4
          refine ih _ _ ?_ _ _ _ hrec
          apply registryConsistent_append_row _ _ _ h
          cases f.eventDate with
          | none => simp [rowConsistent]
          | some dt => simp [rowConsistent]

/-- Every registry the batch all-pages loop can return is consistent: the
derived documents copy all four calendar fields from their (consistent)
upload sessions. -/
theorem process_all_try_consistent (rasterizeHigh : String → Except String (List String))
    (clock : Nat) (items : List ProcessAllItem) :
    ∀ d r, registryConsistent r = true →
      ∀ d2 r2, process_all_try rasterizeHigh clock items d r = (d2, .ok r2) →
        registryConsistent r2 = true := by
  induction items with
  | nil =>
    intro d r h d2 r2 heq
    simp only [process_all_try] at heq
    injection heq with h1 h2
    injection h2 with h3
    rw [← h3]
    exact h
  | cons item rest ih =>
    intro d r h d2 r2 heq
    unfold process_all_try at heq
    split at heq
    · exact ih _ _ h _ _ heq
    · rename_i uploadBeo hfind
      split at heq
      · exact ih _ _ h _ _ heq
      · rename_i pdfBytes hlook
        split at heq
        · injection heq with h1 h2
          cases h2
        · rename_i images hR
          dsimp only at heq
          refine ih _ _ ?_ _ _ heq
          apply registryConsistent_append_row _ _ _ h
          have hrow : rowConsistent uploadBeo = true := by
            have := List.all_eq_true.mp h uploadBeo (List.mem_of_find?_eq_some hfind)
            exact this
          exact hrow

/-- `update_beo_metadata` keeps every row consistent: a provided event date
rewrites all four calendar fields together, and the other updates touch none
of them. -/
theorem update_beo_metadata_consistent (sessionId : String) (beoNumber : Option String)
    (eventDate : Option Date) (orderPosition : Option Int) (clock : Nat) (st : SysState)
    (h : registryConsistent st.registry = true) :
    registryConsistent (update_beo_metadata sessionId beoNumber eventDate orderPosition
      clock st).1.registry = true := by
  unfold update_beo_metadata
  cases hF : st.registry.beos.find? (fun b => b.session_id == sessionId) with
  | none => exact h
  | some b0 =>
    simp only [hF]
    unfold registryConsistent at h ⊢
    apply registryConsistent_map _ _ _ h
    intro b hb
    by_cases hc : (b.session_id == sessionId) = true
    · rw [if_pos hc]
      cases eventDate with
      | some dt =>
        cases beoNumber with
        | none => cases orderPosition <;> simp [rowConsistent]
        | some num => cases orderPosition <;> simp [rowConsistent]
      | none =>
        cases beoNumber with
        | none => cases orderPosition <;> simpa [rowConsistent] using hb
        | some num => cases orderPosition <;> simpa [rowConsistent] using hb
    · rw [if_neg hc]
      exact hb

/-- `reorder_beo` keeps every row consistent: the moved document gets all
four calendar fields rewritten together, the same-day documents only change
their order position. -/
theorem reorder_beo_consistent (sessionId : String) (newDate : Date) (orderPosition : Int)
    (clock : Nat) (st : SysState) (h : registryConsistent st.registry = true) :
    registryConsistent (reorder_beo sessionId newDate orderPosition clock st).1.registry
      = true := by
  unfold reorder_beo
  cases hF : st.registry.beos.find? (fun b => b.session_id == sessionId) with
  | none => exact h
  | some b0 =>
    simp only [hF]
    unfold registryConsistent at h ⊢
    apply registryConsistent_map _ _ _ h
    intro b hb
    by_cases hc : (b.session_id == sessionId) = true
    · rw [if_pos hc]
      simp [rowConsistent, reorderMoved]
    · rw [if_neg hc]
      cases hL : ((sameDayBeos st sessionId newDate).enum.map
          (fun p => (p.2.session_id, reorderRank orderPosition p.1))).lookup b.session_id with
      | none => simpa [hL] using hb
      | some q =>
        simp only [hL]
        simpa [rowConsistent] using hb

/-- `create_beo_from_pages` commits a document copying all four calendar
fields from its (consistent) parent. -/
theorem create_beo_from_pages_consistent
    (rasterizeHigh : String → Except String (List String))
    (parentSessionId beoNumber : String) (pageIndices : List Int) (orderPosition : Int)
    (newSessionId : String) (nextId : Nat) (clock : Nat) (st : SysState)
    (h : registryConsistent st.registry = true) :
    registryConsistent (create_beo_from_pages rasterizeHigh parentSessionId beoNumber
      pageIndices orderPosition newSessionId nextId clock st).1.registry = true := by
  unfold create_beo_from_pages
  cases hF : st.registry.beos.find? (fun b => b.session_id == parentSessionId) with
  | none => exact h
  | some parent =>
    simp only [hF]
    cases hD : st.disk.originals.lookup parentSessionId with
    | none => exact h
    | some pdfBytes =>
      simp only [hD]
      cases hR : rasterizeHigh pdfBytes with
      | error e => exact h
      | ok images =>
        simp only [hR]
        cases hL : createPagesLoop newSessionId nextId images pageIndices.enum st.disk []
            with
        | mk disk1 rest1 =>
          cases rest1 with
          | mk pages1 exc1 =>
            cases exc1 with
            | some e => exact h
            | none =>
              apply registryConsistent_append_row _ _ _ h
              have hrow : rowConsistent parent = true :=
                List.all_eq_true.mp h parent (List.mem_of_find?_eq_some hF)
              exact hrow

/-- A status/clock-only row update keeps consistency. -/
theorem rowConsistent_status_update (b : BEORow) (s : String) (c : Nat)
    (hb : rowConsistent b = true) :
    rowConsistent { b with status := s, updated_at := c } = true := hb

/-- `select_pages`, `save_annotation_route` and `process_selected_pages` only touch
status and clock on document rows, so they keep consistency. -/
theorem status_ops_consistent (clock : Nat) (sessionId : String) (sel : List Int)
    (pageIndex : Int) (payload : String)
    (rasterizeHigh : String → Except String (List String)) (st : SysState)
    (h : registryConsistent st.registry = true) :
    registryConsistent (select_pages sessionId sel clock st).1.registry = true ∧
    registryConsistent (save_annotation_route sessionId pageIndex payload clock st).1.registry
      = true ∧
    registryConsistent (process_selected_pages rasterizeHigh clock sessionId sel
      st).1.registry = true := by
  refine ⟨?_, ?_, ?_⟩
  · unfold select_pages
    cases hF : st.registry.beos.find? (fun b => b.session_id == sessionId) with
    | none => exact h
    | some b0 =>
      simp only [hF]
      apply registryConsistent_map _ _ _ h
      intro b hb
      by_cases hc : (b.session_id == sessionId) = true
      · rw [if_pos hc]
        exact hb
      · rw [if_neg hc]
        exact hb
  · unfold save_annotation_route
    cases hF : st.registry.beos.find? (fun b => b.session_id == sessionId) with
    | none => exact h
    | some b0 =>
      simp only [hF]
      apply registryConsistent_map _ _ _ h
      intro b hb
      by_cases hc : (b.session_id == sessionId) = true
      · rw [if_pos hc]
        exact hb
      · rw [if_neg hc]
        exact hb
  · unfold process_selected_pages
    cases hF : st.registry.beos.find? (fun b => b.session_id == sessionId) with
    | none => exact h
    | some b0 =>
      simp only [hF]
      cases hD : st.disk.originals.lookup sessionId with
      | none => exact h
      | some pdfBytes =>
        simp only [hD]
        cases hR : rasterizeHigh pdfBytes with
        | error e => exact h
        | ok images =>
          simp only [hR]
          cases hL : processLoop sessionId b0.id images sel st.disk st.registry.pages []
              with
          | mk disk1 rest1 =>
            cases rest1 with
            | mk pages1 rest2 =>
              cases rest2 with
              | mk dict1 exc1 =>
                cases exc1 with
                | some e => exact h
                | none =>
                  apply registryConsistent_map _ _ _ h
                  intro b hb
                  by_cases hc : (b.session_id == sessionId) = true
                  · rw [if_pos hc]
                    exact hb
                  · rw [if_neg hc]
                    exact hb

/-- `delete_beo` keeps consistency (it only removes rows). -/
theorem delete_beo_consistent (sessionId : String) (st : SysState)
    (h : registryConsistent st.registry = true) :
    registryConsistent (delete_beo sessionId st).1.registry = true := by
  unfold delete_beo
  cases hF : st.registry.beos.find? (fun b => b.session_id == sessionId) with
  | none => exact h
  | some b0 =>
    simp only [hF]
    exact registryConsistent_filter _ _ h

/-- `upload_multiple_pdfs` and `process_all_pages` keep consistency. -/
theorem batch_ops_consistent (rasterize : String → Except String (List String))
    (clock : Nat) (files : List MultiFileItem) (items : List ProcessAllItem)
    (st : SysState) (h : registryConsistent st.registry = true) :
    registryConsistent (upload_multiple_pdfs rasterize clock files st).1.registry = true ∧
    registryConsistent (process_all_pages rasterize clock items st).1.registry = true := by
  constructor
  · unfold upload_multiple_pdfs
    cases hT : upload_multiple_try rasterize clock files st.disk st.registry with
    | mk d res =>
      cases res with
      | error e => exact h
      | ok rn =>
        obtain ⟨r2, n⟩ := rn
        exact upload_multiple_try_consistent rasterize clock files st.disk st.registry h
          d r2 n hT
  · unfold process_all_pages
    cases hT : process_all_try rasterize clock items st.disk st.registry with
    | mk d res =>
      cases res with
      | error e => exact h
      | ok r2 =>
        exact process_all_try_consistent rasterize clock items st.disk st.registry h
          d r2 hT

/-- One API operation, with its request payload, ambient clock, and fresh
identifiers. -/
inductive Op where
  | upload (rasterize : String → Except String (List String)) (now : Date) (clock : Nat)
      (sessionId : String) (nextId : Nat) (filename pdfBytes fileType : String)
  | uploadMultiple (rasterize : String → Except String (List String)) (clock : Nat)
      (files : List MultiFileItem)
  | processAll (rasterizeHigh : String → Except String (List String)) (clock : Nat)
      (items : List ProcessAllItem)
  | select (sessionId : String) (selectedPages : List Int) (clock : Nat)
  | processSelected (rasterizeHigh : String → Except String (List String)) (clock : Nat)
      (sessionId : String) (selectedPages : List Int)
  | saveAnnot (sessionId : String) (pageIndex : Int) (payload : String) (clock : Nat)
  | updateMetadata (sessionId : String) (beoNumber : Option String)
      (eventDate : Option Date) (orderPosition : Option Int) (clock : Nat)
  | reorder (sessionId : String) (newDate : Date) (orderPosition : Int) (clock : Nat)
  | createFromPages (rasterizeHigh : String → Except String (List String))
      (parentSessionId beoNumber : String) (pageIndices : List Int) (orderPosition : Int)
      (newSessionId : String) (nextId : Nat) (clock : Nat)
  | deleteBeo (sessionId : String)

/-- The system state an operation leaves behind (on success or failure). -/
def applyOp (op : Op) (st : SysState) : SysState :=
  match op with
  | .upload r now c sid nid fn pdf ft => (upload_pdf r now c sid nid fn pdf ft st).1
  | .uploadMultiple r c files => (upload_multiple_pdfs r c files st).1
  | .processAll r c items => (process_all_pages r c items st).1
  | .select sid sel c => (select_pages sid sel c st).1
  | .processSelected r c sid sel => (process_selected_pages r c sid sel st).1
  | .saveAnnot sid i pl c => (save_annotation_route sid i pl c st).1
  | .updateMetadata sid num ed pos c => (update_beo_metadata sid num ed pos c st).1
  | .reorder sid dt pos c => (reorder_beo sid dt pos c st).1
  | .createFromPages r psid num idxs pos nsid nid c =>
      (create_beo_from_pages r psid num idxs pos nsid nid c st).1
  | .deleteBeo sid => (delete_beo sid st).1

/-- The state after a whole sequence of API operations. -/
def applyOps (ops : List Op) (st : SysState) : SysState :=
  ops.foldl (fun s op => applyOp op s) st

/-- Every single operation preserves calendar-field consistency. -/
theorem applyOp_consistent (op : Op) (st : SysState)
    (h : registryConsistent st.registry = true) :
    registryConsistent (applyOp op st).registry = true := by
  cases op with
  | upload r now c sid nid fn pdf ft => exact upload_pdf_consistent r now c sid nid fn pdf ft st h
  | uploadMultiple r c files => exact (batch_ops_consistent r c files [] st h).1
  | processAll r c items => exact (batch_ops_consistent r c [] items st h).2
  | select sid sel c => exact (status_ops_consistent c sid sel 0 "" (fun _ => .ok []) st h).1
  | processSelected r c sid sel => exact (status_ops_consistent c sid sel 0 "" r st h).2.2
  | saveAnnot sid i pl c =>
    exact (status_ops_consistent c sid [] i pl (fun _ => .ok []) st h).2.1
  | updateMetadata sid num ed pos c => exact update_beo_metadata_consistent sid num ed pos c st h
  | reorder sid dt pos c => exact reorder_beo_consistent sid dt pos c st h
  | createFromPages r psid num idxs pos nsid nid c =>
    exact create_beo_from_pages_consistent r psid num idxs pos nsid nid c st h
  | deleteBeo sid => exact delete_beo_consistent sid st h

/-- C8: every operation that writes event_date (ingest with filename parsing,
multi-file upload, metadata update, reorder, the batch and split derivations)
writes day_of_week, week_number and year together with it, derived from the
new date, and no operation changes the derived triple without event_date:
hence after any sequence of API operations starting from a consistent
registry, every document's derived triple is consistent with its
event_date. -/
theorem derived_fields_consistent (ops : List Op) (st : SysState)
    (h : registryConsistent st.registry = true) :
    registryConsistent (applyOps ops st).registry = true := by
  induction ops generalizing st with
  | nil => exact h
  | cons op rest ih => exact ih (applyOp op st) (applyOp_consistent op st h)

/-- C8 witness: a concrete four-operation run (upload with parsed filename
date, metadata update, reorder, split) from the empty registry stays
consistent. -/
theorem derived_fields_consistent_witness :
    registryConsistent (applyOps
      [.upload (fun _ => .ok ["i"]) ⟨2025, 9, 1⟩ 1 "P" 1 "1028 Tuesday.pdf" "b" "daily",
       .updateMetadata "P" (some "1234567") (some ⟨2025, 10, 29⟩) (some 0) 2,
       .reorder "P" ⟨2025, 10, 30⟩ 0 3,
       .createFromPages (fun _ => .ok ["i"]) "P" "B2" [0] 1 "Q" 2 4]
      emptyState).registry = true :=
  derived_fields_consistent _ emptyState (by decide)

/-! ## C1: calendar re-balancing -/

/-- The order positions of the active documents on one date. -/
def dayPositions (st : SysState) (t : Date) : List Int :=
  (st.registry.beos.filter (fun b => b.event_date == some t && b.is_active)).map
    (fun b => b.order_position)

/-- Two documents at dense positions 0 and 1 on Oct 28 and a third document
on Oct 29. -/
def stDay : SysState :=
  { registry := { beos := [sampleBeo 1 "A" (some ⟨2025, 10, 28⟩) 0,
                           sampleBeo 2 "B" (some ⟨2025, 10, 28⟩) 1,
                           sampleBeo 3 "M" (some ⟨2025, 10, 29⟩) 0],
                  pages := [], annotations := [] },
    disk := { originals := [], thumbnails := [], highRes := [] } }

/-- C1 counterexample: placing `M` on Oct 28 at target position 5 (beyond the
two documents already there) leaves positions {0, 1, 5} -- a gap, not the
claimed contiguous {0..k-1}; the code never clamps the requested position. -/
theorem reorder_gap_counterexample :
    dayPositions (reorder_beo "M" ⟨2025, 10, 28⟩ 5 9 stDay).1 ⟨2025, 10, 28⟩ = [0, 1, 5] ∧
    ¬ (dayPositions (reorder_beo "M" ⟨2025, 10, 28⟩ 5 9 stDay).1 ⟨2025, 10, 28⟩).Perm
        ((List.range 3).map Int.ofNat) := by
  decide

/-- Position `i` receives `i + 1` at or above the insertion point, `i`
below it. -/
def skipFun (p i : Nat) : Nat :=
  if p ≤ i then i + 1 else i

/-- Inserting `p` among the shifted positions 0..n-1 yields exactly 0..n. -/
theorem skip_perm (n : Nat) : ∀ p, p ≤ n →
    (p :: (List.range n).map (skipFun p)).Perm (List.range (n + 1)) := by
  induction n with
  | zero =>
    intro p hp
    have h0 : p = 0 := Nat.le_zero.mp hp
    subst h0
    simp [List.range_succ]
  | succ n ih =>
    intro p hp
    by_cases hpn : p ≤ n
    · have hmap : (List.range (n + 1)).map (skipFun p) =
          ((List.range n).map (skipFun p)) ++ [n + 1] := by
        rw [List.range_succ, List.map_append]
        simp [skipFun, hpn]
      rw [hmap]
      have h2 := (ih p hpn).append_right [n + 1]
      rw [← List.range_succ] at h2
      exact h2
    · have hpe : p = n + 1 := by omega
      subst hpe
      have hmap : (List.range (n + 1)).map (skipFun (n + 1)) = List.range (n + 1) := by
        have h1 : ∀ i ∈ List.range (n + 1), skipFun (n + 1) i = id i := by
          intro i hi
          have h2 : i < n + 1 := List.mem_range.mp hi
          unfold skipFun
          rw [if_neg (by omega)]
          rfl
        rw [List.map_congr_left h1, List.map_id]
      rw [hmap]
      have h2 := (List.perm_append_singleton (n + 1) (List.range (n + 1))).symm
      rw [← List.range_succ] at h2
      exact h2

/-- The renumbering of one same-day document equals the Nat skip function. -/
theorem reorderRank_eq (p : Int) (_hp : 0 ≤ p) (i : Nat) :
    reorderRank p i = Int.ofNat (skipFun p.toNat i) := by
  unfold reorderRank skipFun
  by_cases hc : p ≤ (i : Int)
  · rw [if_pos hc, if_pos (Int.toNat_le.mpr hc)]
    simp
  · rw [if_neg hc, if_neg (fun hn => hc (Int.toNat_le.mp hn))]
    rfl

/-- Inserting the target position among the renumbered same-day positions
yields exactly 0..n, over the integers. -/
theorem skip_perm_int (n : Nat) (p : Int) (hp0 : 0 ≤ p) (hpn : p ≤ (n : Int)) :
    (p :: (List.range n).map (fun i => reorderRank p i)).Perm
      ((List.range (n + 1)).map Int.ofNat) := by
  have hmap : (List.range n).map (fun i => reorderRank p i) =
      ((List.range n).map (skipFun p.toNat)).map Int.ofNat := by
    rw [List.map_map]
    exact List.map_congr_left (fun i hi => reorderRank_eq p hp0 i)
  have hpt : p = Int.ofNat p.toNat := (Int.toNat_of_nonneg hp0).symm
  rw [hmap, List.map_map]
  nth_rewrite 1 [hpt]
  have hperm := (skip_perm n p.toNat (by omega)).map Int.ofNat
  rw [List.map_cons, List.map_map] at hperm
  exact hperm

/-- Looking up a row's session id in the rank-assignment association list
built from an enumerated table with distinct session ids finds exactly the
rank of that row. -/
theorem lookup_enum_ranks (g : Nat → Int) :
    ∀ (l : List BEORow) (k : Nat), (l.map (fun b => b.session_id)).Nodup →
      ∀ (i : Nat) (h : i < l.length),
      ((l.enumFrom k).map (fun q => (q.2.session_id, g q.1))).lookup
          ((l.get ⟨i, h⟩).session_id) = some (g (k + i)) := by
  intro l
  induction l with
  | nil =>
    intro k hnd i hi
    exact absurd hi (Nat.not_lt_zero i)
  | cons x xs ih =>
    intro k hnd i hi
    rw [List.map_cons] at hnd
    obtain ⟨hx, hxs⟩ := List.nodup_cons.mp hnd
    cases i with
    | zero =>
      simp [List.enumFrom_cons, List.lookup]
    | succ i2 =>
      have hi2 : i2 < xs.length := by simpa using hi
      have hget : (x :: xs).get ⟨i2 + 1, hi⟩ = xs.get ⟨i2, hi2⟩ := rfl
      rw [hget]
      have hmem : (xs.get ⟨i2, hi2⟩).session_id ∈ xs.map (fun b => b.session_id) :=
        List.mem_map.mpr ⟨xs.get ⟨i2, hi2⟩, xs.get_mem _ _, rfl⟩
      have hne : ((xs.get ⟨i2, hi2⟩).session_id == x.session_id) = false := by
        rw [beq_eq_false_iff_ne]
        intro hsid
        exact hx (hsid ▸ hmem)
      rw [List.enumFrom_cons, List.map_cons]
      simp only [List.lookup, hne]
      have harg : k + 1 + i2 = k + (i2 + 1) := by omega
      rw [ih (k + 1) hxs i2 hi2, harg]

/-- Sorted positions of the same-day documents: when their position multiset
is dense 0..n-1, the ORDER BY listing is literally [0, 1, .., n-1]. -/
theorem sameDayBeos_positions (st : SysState) (sessionId : String) (t : Date)
    (hdense : ((st.registry.beos.filter (fun b =>
        b.event_date == some t && b.session_id != sessionId && b.is_active)).map
        (fun b => b.order_position)).Perm
      ((List.range (sameDayBeos st sessionId t).length).map Int.ofNat)) :
    (sameDayBeos st sessionId t).map (fun b => b.order_position) =
      (List.range (sameDayBeos st sessionId t).length).map Int.ofNat := by
  have hperm : ((sameDayBeos st sessionId t).map (fun b => b.order_position)).Perm
      ((List.range (sameDayBeos st sessionId t).length).map Int.ofNat) :=
    ((List.perm_insertionSort posLE _).map _).trans hdense
  have hsortL : List.Sorted (fun a b : Int => a ≤ b)
      ((sameDayBeos st sessionId t).map (fun b => b.order_position)) :=
    List.pairwise_map.mpr (List.sorted_insertionSort posLE _)
  have hsortR : List.Sorted (fun a b : Int => a ≤ b)
      ((List.range (sameDayBeos st sessionId t).length).map Int.ofNat) :=
    List.pairwise_map.mpr ((List.pairwise_lt_range _).imp (fun h =>
      Int.ofNat_le.mpr (Nat.le_of_lt h)))
  exact List.eq_of_perm_of_sorted hperm hsortL hsortR

/-- In a table with distinct session ids, every row of the erased remainder
has a session id different from the erased row. -/
theorem erase_sid_ne (L : List BEORow) (moved : BEORow)
    (hnodup : (L.map (fun b => b.session_id)).Nodup) (hmem : moved ∈ L) :
    ∀ b ∈ L.erase moved, b.session_id ≠ moved.session_id := by
  intro b hb hsid
  have hrows : L.Nodup := List.Nodup.of_map _ hnodup
  have hbl : b ∈ L := (List.erase_sublist moved L).subset hb
  have hbe : b = moved := List.inj_on_of_nodup_map hnodup hbl hmem hsid
  subst hbe
  exact ((hrows.mem_erase_iff).mp hb).1 rfl

/-- The row transformation `reorder_beo` maps over the document table. -/
def reorderF (st : SysState) (sessionId : String) (t : Date) (p : Int) (clock : Nat)
    (b : BEORow) : BEORow :=
  if b.session_id == sessionId then reorderMoved t p clock b
  else
    match (((sameDayBeos st sessionId t).enum.map
        (fun q => (q.2.session_id, reorderRank p q.1))).lookup b.session_id) with
    | some q => { b with order_position := q }
    | none => b

/-- On success, `reorder_beo` rewrites the table by `reorderF` (and touches
nothing else). -/
theorem reorder_beo_beos (st : SysState) (sessionId : String) (t : Date) (p : Int)
    (clock : Nat) (moved : BEORow)
    (hfind : st.registry.beos.find? (fun b => b.session_id == sessionId) = some moved) :
    (reorder_beo sessionId t p clock st).1.registry.beos =
      st.registry.beos.map (reorderF st sessionId t p clock) := by
  unfold reorder_beo reorderF
  simp only [hfind]

/-- `reorderF` preserves session ids. -/
theorem reorderF_session_id (st : SysState) (sessionId : String) (t : Date) (p : Int)
    (clock : Nat) (b : BEORow) :
    (reorderF st sessionId t p clock b).session_id = b.session_id := by
  unfold reorderF
  by_cases hc : (b.session_id == sessionId) = true
  · rw [if_pos hc]
    rfl
  · rw [if_neg hc]
    cases (((sameDayBeos st sessionId t).enum.map
        (fun q => (q.2.session_id, reorderRank p q.1))).lookup b.session_id) with
    | some q => rfl
    | none => rfl

/-- `reorderF` preserves event date and active flag of non-moved rows, and of
moved rows sets the event date to the target. -/
theorem reorderF_filter_fields (st : SysState) (sessionId : String) (t : Date) (p : Int)
    (clock : Nat) (b : BEORow) (hb : (b.session_id == sessionId) = false) :
    (reorderF st sessionId t p clock b).event_date = b.event_date ∧
    (reorderF st sessionId t p clock b).is_active = b.is_active := by
  unfold reorderF
  rw [if_neg (by simp only [hb]; exact Bool.false_ne_true)]
  cases (((sameDayBeos st sessionId t).enum.map
      (fun q => (q.2.session_id, reorderRank p q.1))).lookup b.session_id) with
  | some q => exact ⟨rfl, rfl⟩
  | none => exact ⟨rfl, rfl⟩

/-- `reorderF` assigns the `idx`-th same-day document its rank position. -/
theorem reorderF_rank (st : SysState) (sessionId : String) (t : Date) (p : Int)
    (clock : Nat) (i : Nat) (hi : i < (sameDayBeos st sessionId t).length)
    (hnodupO : ((sameDayBeos st sessionId t).map (fun b => b.session_id)).Nodup)
    (hbne : (((sameDayBeos st sessionId t).get ⟨i, hi⟩).session_id == sessionId) = false) :
    reorderF st sessionId t p clock ((sameDayBeos st sessionId t).get ⟨i, hi⟩) =
      { (sameDayBeos st sessionId t).get ⟨i, hi⟩ with order_position := reorderRank p i } := by
  unfold reorderF
  rw [if_neg (by simp only [hbne]; exact Bool.false_ne_true)]
  have hlk := lookup_enum_ranks (reorderRank p) (sameDayBeos st sessionId t) 0 hnodupO i hi
  rw [show (0 : Nat) + i = i from Nat.zero_add i] at hlk
  rw [show (sameDayBeos st sessionId t).enum =
    List.enumFrom 0 (sameDayBeos st sessionId t) from rfl, hlk]

/-- C1 (amended): a PlaceOnCalendar call moving document `d` to date `t` at
target position `p`, where the other active documents on `t` currently hold
dense positions 0..n-1 and `0 ≤ p ≤ n`, leaves the active documents on `t`
holding positions exactly {0..n} with `d` at `p`: every other document whose
current position is at least `p` is shifted up by one and those below keep
their positions.  (Without the bound `p ≤ n` the positions are not contiguous
-- see the counterexample.) -/
theorem reorder_rebalances_day (st : SysState) (sessionId : String) (t : Date) (p : Int)
    (clock : Nat) (moved : BEORow)
    (hfind : st.registry.beos.find? (fun b => b.session_id == sessionId) = some moved)
    (hact : moved.is_active = true)
    (hnodup : (st.registry.beos.map (fun b => b.session_id)).Nodup)
    (hp0 : 0 ≤ p) (hpn : p ≤ ((sameDayBeos st sessionId t).length : Int))
    (hdense : ((st.registry.beos.filter (fun b =>
        b.event_date == some t && b.session_id != sessionId && b.is_active)).map
        (fun b => b.order_position)).Perm
      ((List.range (sameDayBeos st sessionId t).length).map Int.ofNat)) :
    (dayPositions (reorder_beo sessionId t p clock st).1 t).Perm
      ((List.range ((sameDayBeos st sessionId t).length + 1)).map Int.ofNat) ∧
    (reorder_beo sessionId t p clock st).1.registry.beos.find?
        (fun b => b.session_id == sessionId) = some (reorderMoved t p clock moved) ∧
    (∀ b ∈ sameDayBeos st sessionId t,
      ∃ b2, b2 ∈ (reorder_beo sessionId t p clock st).1.registry.beos ∧
        b2.session_id = b.session_id ∧
        b2.order_position =
          (if p ≤ b.order_position then b.order_position + 1 else b.order_position)) := by
  have hsidT : (moved.session_id == sessionId) = true :=
    @List.find?_some _ (fun b => b.session_id == sessionId) moved st.registry.beos hfind
  have hsid : moved.session_id = sessionId := by simpa using hsidT
  have hmem : moved ∈ st.registry.beos := List.mem_of_find?_eq_some hfind
  have hbeos := reorder_beo_beos st sessionId t p clock moved hfind
  have hmovedF : reorderF st sessionId t p clock moved = reorderMoved t p clock moved := by
    unfold reorderF
    rw [if_pos hsidT]
  have hpermO : (sameDayBeos st sessionId t).Perm
      (st.registry.beos.filter (fun b =>
        b.event_date == some t && b.session_id != sessionId && b.is_active)) :=
    List.perm_insertionSort posLE _
  have hnodupO : ((sameDayBeos st sessionId t).map (fun b => b.session_id)).Nodup := by
    have hsub : ((st.registry.beos.filter (fun b =>
        b.event_date == some t && b.session_id != sessionId && b.is_active)).map
        (fun b => b.session_id)).Sublist (st.registry.beos.map (fun b => b.session_id)) :=
      (List.filter_sublist _).map _
    exact ((hpermO.map (fun b => b.session_id)).nodup_iff).mpr (hsub.nodup hnodup)
  have hsorted := sameDayBeos_positions st sessionId t hdense
  have hpos_get : ∀ i (hi : i < (sameDayBeos st sessionId t).length),
      ((sameDayBeos st sessionId t).get ⟨i, hi⟩).order_position = Int.ofNat i := by
    intro i hi
    have h1 := List.get_of_eq hsorted ⟨i, by simpa using hi⟩
    rw [List.get_map, List.get_map, List.get_range] at h1
    exact h1
  have hbneO : ∀ b ∈ sameDayBeos st sessionId t, (b.session_id == sessionId) = false := by
    intro b hb
    have hbf := hpermO.subset hb
    have hQ := (List.mem_filter.mp hbf).2
    simp only [Bool.and_eq_true] at hQ
    exact beq_eq_false_iff_ne.mpr (bne_iff_ne.mp hQ.1.2)
  have hfind2 : (reorder_beo sessionId t p clock st).1.registry.beos.find?
      (fun b => b.session_id == sessionId) = some (reorderMoved t p clock moved) := by
    rw [hbeos, find?_sessionId_map _ (reorderF_session_id st sessionId t p clock) sessionId,
      hfind]
    show some (reorderF st sessionId t p clock moved) = some (reorderMoved t p clock moved)
    rw [hmovedF]
  refine ⟨?_, hfind2, ?_⟩
  · -- the dense-positions permutation
    have hcons : st.registry.beos.Perm (moved :: st.registry.beos.erase moved) :=
      List.perm_cons_erase hmem
    have herase_ne : ∀ b ∈ st.registry.beos.erase moved,
        (b.session_id == sessionId) = false := by
      intro b hb
      have hne := erase_sid_ne st.registry.beos moved hnodup hmem b hb
      rw [beq_eq_false_iff_ne]
      intro h2
      exact hne (h2.trans hsid.symm)
    unfold dayPositions
    rw [hbeos]
    have hstep1 := (((hcons.map (reorderF st sessionId t p clock)).filter
        (fun b => b.event_date == some t && b.is_active)).map (fun b => b.order_position))
    refine hstep1.trans ?_
    rw [List.map_cons, hmovedF]
    rw [List.filter_cons_of_pos (by simp [reorderMoved, hact])]
    rw [List.map_cons]
    have hfilter_map : (((st.registry.beos.erase moved).map
        (reorderF st sessionId t p clock)).filter
        (fun b => b.event_date == some t && b.is_active)) =
        (((st.registry.beos.erase moved).filter
          (fun b => b.event_date == some t && b.is_active)).map
          (reorderF st sessionId t p clock)) := by
      rw [List.filter_map]
      congr 1
      apply List.filter_congr
      intro b hb
      obtain ⟨he, ha⟩ := reorderF_filter_fields st sessionId t p clock b (herase_ne b hb)
      simp [Function.comp, he, ha]
    rw [hfilter_map, List.map_map]
    have hPQ : ((st.registry.beos.erase moved).filter
        (fun b => b.event_date == some t && b.is_active)) =
        ((st.registry.beos.erase moved).filter (fun b =>
          b.event_date == some t && b.session_id != sessionId && b.is_active)) := by
      apply List.filter_congr
      intro b hb
      have hbne : (b.session_id != sessionId) = true := by
        rw [bne, herase_ne b hb]
        rfl
      simp [hbne]
    have hQmoved : (fun b => b.event_date == some t && b.session_id != sessionId &&
        b.is_active) moved = false := by
      simp [bne, hsidT]
    have hQ_perm : ((st.registry.beos.erase moved).filter (fun b =>
        b.event_date == some t && b.session_id != sessionId && b.is_active)).Perm
        (sameDayBeos st sessionId t) := by
      have h1 := hcons.filter (fun b =>
        b.event_date == some t && b.session_id != sessionId && b.is_active)
      rw [List.filter_cons_of_neg (by simp [hQmoved])] at h1
      exact h1.symm.trans hpermO.symm
    have hmap_ranks : (sameDayBeos st sessionId t).map
        ((fun b => b.order_position) ∘ reorderF st sessionId t p clock) =
        (List.range (sameDayBeos st sessionId t).length).map (fun i => reorderRank p i) := by
      apply List.ext_get
      · simp
      · intro i h1 h2
        rw [List.get_map, List.get_map, List.get_range]
        have hi : i < (sameDayBeos st sessionId t).length := by simpa using h1
        rw [show ((sameDayBeos st sessionId t).get ⟨i, by simpa using h1⟩) =
          ((sameDayBeos st sessionId t).get ⟨i, hi⟩) from rfl]
        rw [Function.comp_apply,
          reorderF_rank st sessionId t p clock i hi hnodupO
            (hbneO _ (List.get_mem _ _ _))]
    have htail : ((((st.registry.beos.erase moved).filter (fun b =>
        b.event_date == some t && b.is_active)).map
        ((fun b => b.order_position) ∘ reorderF st sessionId t p clock))).Perm
        ((List.range (sameDayBeos st sessionId t).length).map (fun i => reorderRank p i)) := by
      rw [hPQ]
      have := hQ_perm.map ((fun b => b.order_position) ∘ reorderF st sessionId t p clock)
      rw [hmap_ranks] at this
      exact this
    have hhead := List.Perm.cons ((reorderMoved t p clock moved).order_position) htail
    refine hhead.trans ?_
    show (p :: (List.range (sameDayBeos st sessionId t).length).map
      (fun i => reorderRank p i)).Perm _
    exact skip_perm_int (sameDayBeos st sessionId t).length p hp0 hpn
  · -- per-document shift
    intro b hb
    obtain ⟨⟨i, hi⟩, hget⟩ := List.mem_iff_get.mp hb
    refine ⟨reorderF st sessionId t p clock b, ?_, reorderF_session_id _ _ _ _ _ _, ?_⟩
    · rw [hbeos]
      have hbL : b ∈ st.registry.beos :=
        List.mem_of_mem_filter (hpermO.subset hb)
      exact List.mem_map.mpr ⟨b, hbL, rfl⟩
    · rw [← hget,
        reorderF_rank st sessionId t p clock i hi hnodupO (hbneO _ (List.get_mem _ _ _))]
      show reorderRank p i = _
      rw [hpos_get i hi]
      unfold reorderRank
      rfl

/-- C1 witness: the spec scenario -- two documents at positions 0 and 1 on
Oct 28 and a third document placed there at position 1 -- yields positions
{0, 1, 2}, the moved document at 1, the document formerly at position 1
shifted to 2 and the one at 0 unchanged. -/
theorem reorder_rebalances_day_witness :
    (dayPositions (reorder_beo "M" ⟨2025, 10, 28⟩ 1 5 stDay).1 ⟨2025, 10, 28⟩).Perm
      ((List.range ((sameDayBeos stDay "M" ⟨2025, 10, 28⟩).length + 1)).map Int.ofNat) ∧
    (reorder_beo "M" ⟨2025, 10, 28⟩ 1 5 stDay).1.registry.beos.find?
        (fun b => b.session_id == "M") =
      some (reorderMoved ⟨2025, 10, 28⟩ 1 5 (sampleBeo 3 "M" (some ⟨2025, 10, 29⟩) 0)) ∧
    (∀ b ∈ sameDayBeos stDay "M" ⟨2025, 10, 28⟩,
      ∃ b2, b2 ∈ (reorder_beo "M" ⟨2025, 10, 28⟩ 1 5 stDay).1.registry.beos ∧
        b2.session_id = b.session_id ∧
        b2.order_position =
          (if (1 : Int) ≤ b.order_position then b.order_position + 1
           else b.order_position)) :=
  reorder_rebalances_day stDay "M" ⟨2025, 10, 28⟩ 1 5
    (sampleBeo 3 "M" (some ⟨2025, 10, 29⟩) 0)
    (by decide) (by decide) (by decide) (by decide) (by decide) (by decide)
